import Mathlib

/-!
The dfturn/alns service: the match state machine of `service/game_service.go`

A shallow embedding of `models/models.go` and of the operations of
`service/game_service.go`.

Conventions of the embedding.

* Go `int` is `Int`.  The only arithmetic of the service is `Score += k` with
  `k ≤ 6`, `BattleNumber++` and comparisons, on values that start at `0`/`1`.
  Go computes these sums in 64 bits; a statement that compares a sum with its
  summand is made for scores between `minInt64` and `maxInt64 - 6`, where no
  sum leaves the range, and for the records reached from `startNewGame`,
  whose scores are at most 17.
* Go `string` is `String`; `TheaterType` is a string type and stays one, so a
  theater name outside `air`, `land`, `sea` is a legal argument.
* A Go `map` is an association list read with `lookupKey` and written with
  `storeKey`; a missing key reads as `none` (Go: the nil pointer).
* `errors.New msg` is `Outcome.err msg`; a nil-pointer dereference is
  `Outcome.panic`.  Every operation works on the record stored under the game
  id (a `*GameState`, mutated in place), so each operation returns the stored
  record after the call together with the outcome.
* Slices of cards.  `startNewGame`, `setupNextBattle` and `StartNextGame` cut
  both hands and the deck out of ONE array (`deck[:6]`, `deck[6:12]`,
  `deck[12:]`); Go slices are windows on their array, and `append` writes
  into the array whenever the window's capacity allows.  The state therefore
  carries that array (`Dealt`) and a hand or deck is a `CardSlice`: a window
  `view off len cap` on `Dealt`, or `own xs` once `append` had to move it to
  an array of its own.  `Trash` and the `Cards` of a theater are each the
  only slice on their array and are plain lists.
* The random source is a parameter: the values returned by `rand.Intn`.
-/

namespace Alns

/-! ## models/models.go -/

/-- Go: `type TheaterType string`. -/
abbrev TheaterType := String

def Air : TheaterType := "air"
def Land : TheaterType := "land"
def Sea : TheaterType := "sea"

/-- Go: `type Card struct`. -/
structure Card where
  ID : Int
  Theater : TheaterType
  Strength : Int
  Name : String
deriving DecidableEq, Repr

/-- Go: `type PlayedCard struct`. -/
structure PlayedCard where
  Card : Alns.Card
  FaceUp : Bool
  PlayerID : String
deriving DecidableEq, Repr

/-- Go: `type Theater struct`; the field `Type` is `Kind` here. -/
structure Theater where
  Kind : TheaterType
  Cards : List PlayedCard
deriving DecidableEq, Repr

/-- A Go `[]Card` held by a hand or by the deck: a window on the dealt array
(offset, `len`, `cap`), or a slice on an array nothing else refers to. -/
inductive CardSlice where
  | view (off len cap : Nat)
  | own (xs : List Card)
deriving DecidableEq, Repr

/-- Go: `type Player struct`. -/
structure Player where
  ID : String
  Name : String
  Hand : CardSlice
  Score : Int
deriving DecidableEq, Repr

/-- Go: `type TheaterScore struct`. -/
structure TheaterScore where
  Player1Total : Int
  Player2Total : Int
deriving DecidableEq, Repr

/-- Go: `type GamePhase string` with its four constants. -/
inductive GamePhase where
  | PhaseWaitingForPlayers
  | PhasePlaying
  | PhaseScoring
  | PhaseGameOver
deriving DecidableEq, Repr

/-- Go: `type GameState struct`.  `Dealt` is the array behind the slices cut
by the last deal; `TheaterScores = none` is the nil map. -/
structure GameState where
  ID : String
  RoomID : String
  Player1 : Player
  Player2 : Player
  Dealt : List Card
  Deck : CardSlice
  Trash : List Card
  TheaterOrder : List TheaterType
  Theaters : List (TheaterType × Theater)
  CurrentPlayerID : String
  Phase : GamePhase
  BattleNumber : Int
  FirstPlayerID : String
  WithdrewPlayerID : String
  TheaterScores : Option (List (TheaterType × TheaterScore))
deriving DecidableEq, Repr

/-- Go: `type Room struct`, with the two players `startNewGame` reads. -/
structure Room where
  ID : String
  Player1ID : String
  Player1Name : String
  Player2ID : String
  Player2Name : String
deriving DecidableEq, Repr

/-- Go: `func AllCards() []Card`. -/
def AllCards : List Card :=
  [ ⟨1, Air, 1, "Air Drop"⟩,
    ⟨2, Air, 2, "Air Superiority"⟩,
    ⟨3, Air, 3, "Aerodrome"⟩,
    ⟨4, Air, 4, "Maneuver"⟩,
    ⟨5, Air, 5, "Transport"⟩,
    ⟨6, Air, 6, "Heavy Bombers"⟩,
    ⟨7, Land, 1, "Ambush"⟩,
    ⟨8, Land, 2, "Reconnaissance"⟩,
    ⟨9, Land, 3, "Support"⟩,
    ⟨10, Land, 4, "Reinforce"⟩,
    ⟨11, Land, 5, "Armor"⟩,
    ⟨12, Land, 6, "Heavy Tanks"⟩,
    ⟨13, Sea, 1, "Disrupt"⟩,
    ⟨14, Sea, 2, "Naval Superiority"⟩,
    ⟨15, Sea, 3, "Redeploy"⟩,
    ⟨16, Sea, 4, "Escalation"⟩,
    ⟨17, Sea, 5, "Containment"⟩,
    ⟨18, Sea, 6, "Blockade"⟩ ]

/-! ## Go maps and slices -/

/-- Go: `m[key]` on a map of pointers; `none` is the nil pointer. -/
def lookupKey {α : Type} : List (String × α) → String → Option α
  | [], _ => none
  | (k, v) :: rest, key => if k = key then some v else lookupKey rest key

/-- Go: `m[key] = v`, or a write through the pointer stored under `key`. -/
def storeKey {α : Type} : List (String × α) → String → α → List (String × α)
  | [], key, v => [(key, v)]
  | (k, x) :: rest, key, v =>
    if k = key then (key, v) :: rest else (k, x) :: storeKey rest key v

namespace CardSlice

/-- Go: `len(s)`. -/
def len : CardSlice → Nat
  | view _ n _ => n
  | own xs => xs.length

/-- The elements `s[0], ..., s[len(s)-1]`, read from the dealt array. -/
def toList (dealt : List Card) : CardSlice → List Card
  | view off n _ => (dealt.drop off).take n
  | own xs => xs

/-- Go: `s[1:]`. -/
def tail : CardSlice → CardSlice
  | view off n cap => view (off + 1) (n - 1) (cap - 1)
  | own xs => own xs.tail

/-- Go: `append(s, c)`.  With room left in the window the card is written
into the dealt array right behind the window; otherwise the elements move to
a new array.  Returns the dealt array and the new slice. -/
def append (dealt : List Card) (s : CardSlice) (c : Card) : List Card × CardSlice :=
  match s with
  | view off n cap =>
    if n < cap then (dealt.set (off + n) c, view off (n + 1) cap)
    else (dealt, own ((dealt.drop off).take n ++ [c]))
  | own xs => (dealt, own (xs ++ [c]))

/-- Go: `append(s[:i], s[i+1:]...)` for `i < len(s)`: the elements behind
index `i` move one place down inside the array, the last place of the old
window keeps its value, and the window gets one shorter. -/
def removeAt (dealt : List Card) (s : CardSlice) (i : Nat) : List Card × CardSlice :=
  match s with
  | view off n cap =>
    (dealt.take (off + i) ++ (dealt.drop (off + i + 1)).take (n - i - 1)
        ++ dealt.drop (off + n - 1),
      view off (n - 1) cap)
  | own xs => (dealt, own (xs.eraseIdx i))

end CardSlice

/-! ## service/game_service.go -/

/-- The result of `errors.New msg`, a nil-pointer panic, or success. -/
inductive Outcome where
  | ok
  | err (msg : String)
  | panic
deriving DecidableEq, Repr

/-- The stored match record after a call, and how the call ended. -/
structure Result where
  game : GameState
  out : Outcome
deriving DecidableEq, Repr

/-- Go: `calculateWithdrawalVP(isFirstPlayer, cardsRemaining)`. -/
def calculateWithdrawalVP (isFirstPlayer : Bool) (cardsRemaining : Int) : Int :=
  if isFirstPlayer then
    if cardsRemaining ≥ 4 then 2
    else if cardsRemaining ≥ 2 then 3
    else if cardsRemaining = 1 then 4
    else 6
  else
    if cardsRemaining ≥ 5 then 2
    else if cardsRemaining ≥ 3 then 3
    else if cardsRemaining = 2 then 4
    else 6

/-- Go: `shuffled[i], shuffled[j] = shuffled[j], shuffled[i]`. -/
def swapAt (xs : List Card) (i j : Nat) : List Card :=
  match xs[i]?, xs[j]? with
  | some a, some b => (xs.set i b).set j a
  | _, _ => xs

/-- Go: the loop of `rand.Shuffle(n, swap)`, `for i := n-1; i > 0; i--` with
`j := Intn(i+1)` and `swap(i, j)`; `picks` are the values the random source
hands out, each reduced into `0..i`. -/
def shuffleLoop : Nat → List Nat → List Card → List Card
  | 0, _, xs => xs
  | i + 1, picks, xs =>
    shuffleLoop i picks.tail (swapAt xs (i + 1) (picks.headD 0 % (i + 2)))

/-- Go: `shuffleDeck(cards)`: a copy of `cards`, shuffled. -/
def shuffleDeck (picks : List Nat) (cards : List Card) : List Card :=
  shuffleLoop (cards.length - 1) picks cards

/-- Go: `deck[:6]`. -/
def dealHand1 (deck : List Card) : CardSlice := .view 0 6 deck.length

/-- Go: `deck[6:12]`. -/
def dealHand2 (deck : List Card) : CardSlice := .view 6 6 (deck.length - 6)

/-- Go: `deck[12:]`. -/
def dealDeck (deck : List Card) : CardSlice :=
  .view 12 (deck.length - 12) (deck.length - 12)

/-- Go: the `Theaters` map literal with three empty theaters. -/
def emptyTheaters : List (TheaterType × Theater) :=
  [(Air, ⟨Air, []⟩), (Land, ⟨Land, []⟩), (Sea, ⟨Sea, []⟩)]

/-- Go: `startNewGame(room)`; `gameID` is the fresh uuid, `coin` the value of
`rand.Intn(2)` and `picks` the values drawn by the shuffle. -/
def startNewGame (room : Room) (gameID : String) (coin : Nat) (picks : List Nat) :
    GameState :=
  let firstPlayerID := if coin % 2 = 1 then room.Player2ID else room.Player1ID
  let deck := shuffleDeck picks AllCards
  { ID := gameID
    RoomID := room.ID
    Player1 := ⟨room.Player1ID, room.Player1Name, dealHand1 deck, 0⟩
    Player2 := ⟨room.Player2ID, room.Player2Name, dealHand2 deck, 0⟩
    Dealt := deck
    Deck := dealDeck deck
    Trash := []
    TheaterOrder := [Air, Land, Sea]
    Theaters := emptyTheaters
    CurrentPlayerID := firstPlayerID
    Phase := .PhasePlaying
    BattleNumber := 1
    FirstPlayerID := firstPlayerID
    WithdrewPlayerID := ""
    TheaterScores := none }

/-- Go: `for i, c := range hand { if c.ID == cardID { ...; break } }`. -/
def findInHand : List Card → Int → Option (Nat × Card)
  | [], _ => none
  | c :: rest, cardID =>
    if c.ID = cardID then some (0, c)
    else (findInHand rest cardID).map (fun p => (p.1 + 1, p.2))

/-- The hand the operations act on: `Player1` if `Player1.ID == playerID`,
else `Player2`. -/
def actingHand (g : GameState) (playerID : String) : CardSlice :=
  if g.Player1.ID = playerID then g.Player1.Hand else g.Player2.Hand

/-- Writes a hand (and the dealt array it may live in) back to the acting
player. -/
def setActingHand (g : GameState) (playerID : String) (r : List Card × CardSlice) :
    GameState :=
  if g.Player1.ID = playerID then
    { g with Dealt := r.1, Player1 := { g.Player1 with Hand := r.2 } }
  else
    { g with Dealt := r.1, Player2 := { g.Player2 with Hand := r.2 } }

/-- Go: the check at the end of `PlayCard` and `DestroyCard`. -/
def checkBattleEnd (g : GameState) : GameState :=
  if g.Player1.Hand.len = 0 ∧ g.Player2.Hand.len = 0 then
    { g with Phase := .PhaseScoring, TheaterScores := some [] }
  else g

/-- Go: `PlayCard(gameID, playerID, cardID, theater, faceUp)`. -/
def PlayCard (g : GameState) (playerID : String) (cardID : Int) (theater : TheaterType)
    (faceUp : Bool) : Result :=
  if g.Phase ≠ .PhasePlaying then ⟨g, .err "game is not in playing phase"⟩
  else if g.CurrentPlayerID ≠ playerID then ⟨g, .err "not your turn"⟩
  else
    match findInHand ((actingHand g playerID).toList g.Dealt) cardID with
    | none => ⟨g, .err "card not in hand"⟩
    | some (cardIndex, card) =>
      let g1 := setActingHand g playerID
        ((actingHand g playerID).removeAt g.Dealt cardIndex)
      match lookupKey g1.Theaters theater with
      | none => ⟨g1, .panic⟩
      | some theaterObj =>
        let played : PlayedCard := ⟨card, faceUp, playerID⟩
        let theaterNew : Theater := ⟨theaterObj.Kind, theaterObj.Cards ++ [played]⟩
        let g2 := { g1 with Theaters := storeKey g1.Theaters theater theaterNew }
        ⟨checkBattleEnd g2, .ok⟩

/-- Go: `EndTurn(gameID, playerID)`. -/
def EndTurn (g : GameState) (playerID : String) : Result :=
  if g.Phase ≠ .PhasePlaying then ⟨g, .err "game is not in playing phase"⟩
  else if g.CurrentPlayerID ≠ playerID then ⟨g, .err "not your turn"⟩
  else if g.CurrentPlayerID = g.Player1.ID then
    ⟨{ g with CurrentPlayerID := g.Player2.ID }, .ok⟩
  else ⟨{ g with CurrentPlayerID := g.Player1.ID }, .ok⟩

/-- Go: `DrawCard(gameID, playerID)`. -/
def DrawCard (g : GameState) (playerID : String) : Result :=
  if g.Phase ≠ .PhasePlaying then ⟨g, .err "game is not in playing phase"⟩
  else if g.CurrentPlayerID ≠ playerID then ⟨g, .err "not your turn"⟩
  else if g.Deck.len = 0 then ⟨g, .err "no cards left in deck"⟩
  else
    match (g.Deck.toList g.Dealt).head? with
    | none => ⟨g, .panic⟩
    | some card =>
      let g1 := { g with Deck := g.Deck.tail }
      if g1.Player1.ID = playerID then
        let r := g1.Player1.Hand.append g1.Dealt card
        ⟨{ g1 with Dealt := r.1, Player1 := { g1.Player1 with Hand := r.2 } }, .ok⟩
      else
        let r := g1.Player2.Hand.append g1.Dealt card
        ⟨{ g1 with Dealt := r.1, Player2 := { g1.Player2 with Hand := r.2 } }, .ok⟩

/-- Go: `for i := len(cards) - 1; i >= 0; i-- { if cards[i].Card.ID == cardID
{ targetIndex = i; targetCard = &cards[i]; break } }`: the last index holding
that card id, with the element there. -/
def lastWithID : List PlayedCard → Int → Option (Nat × PlayedCard)
  | [], _ => none
  | c :: rest, cardID =>
    match lastWithID rest cardID with
    | some p => some (p.1 + 1, p.2)
    | none => if c.Card.ID = cardID then some (0, c) else none

/-- Go: the target resolution of `ManipulateCard`: the index of the target,
or the error message. -/
def resolveTarget (cards : List PlayedCard) (cardID : Int) : Except String Nat :=
  if cardID ≠ 0 then
    match lastWithID cards cardID with
    | none => .error "card not found in theater"
    | some (targetIndex, targetCard) =>
      if (cards.drop (targetIndex + 1)).any (fun c => c.PlayerID = targetCard.PlayerID)
      then .error "card is not the top of that player's stack"
      else .ok targetIndex
  else .ok (cards.length - 1)

/-- The array behind a theater's `Cards` after
`append(cards[:i], cards[i+1:]...)`: the shortened sequence, followed by the
old last element, which stays in its place. -/
def arrayAfterRemove (cards : List PlayedCard) (i : Nat) : List PlayedCard :=
  cards.eraseIdx i ++ cards.drop (cards.length - 1)

/-- Go: `ManipulateCard(gameID, playerID, theater, cardID, action)`.  In the
`return` case `targetCard` is a pointer into the array of the theater and
`targetCard.PlayerID` is read after the removal has shifted that array. -/
def ManipulateCard (g : GameState) (playerID : String) (theater : TheaterType)
    (cardID : Int) (action : String) : Result :=
  if g.Phase ≠ .PhasePlaying then ⟨g, .err "game is not in playing phase"⟩
  else if g.CurrentPlayerID ≠ playerID then ⟨g, .err "not your turn"⟩
  else
    match lookupKey g.Theaters theater with
    | none => ⟨g, .panic⟩
    | some theaterObj =>
      if theaterObj.Cards.length = 0 then ⟨g, .err "no cards in this theater"⟩
      else
        match resolveTarget theaterObj.Cards cardID with
        | .error msg => ⟨g, .err msg⟩
        | .ok targetIndex =>
          match theaterObj.Cards[targetIndex]? with
          | none => ⟨g, .panic⟩
          | some targetCard =>
            if action = "flip" then
              let flipped : PlayedCard :=
                ⟨targetCard.Card, !targetCard.FaceUp, targetCard.PlayerID⟩
              let theaterNew : Theater :=
                ⟨theaterObj.Kind, theaterObj.Cards.set targetIndex flipped⟩
              ⟨{ g with Theaters := storeKey g.Theaters theater theaterNew }, .ok⟩
            else if action = "destroy" then
              let theaterNew : Theater :=
                ⟨theaterObj.Kind, theaterObj.Cards.eraseIdx targetIndex⟩
              ⟨{ g with Theaters := storeKey g.Theaters theater theaterNew,
                        Trash := g.Trash ++ [targetCard.Card] }, .ok⟩
            else if action = "return" then
              let card := targetCard.Card
              let theaterNew : Theater :=
                ⟨theaterObj.Kind, theaterObj.Cards.eraseIdx targetIndex⟩
              let g1 := { g with Theaters := storeKey g.Theaters theater theaterNew }
              match (arrayAfterRemove theaterObj.Cards targetIndex)[targetIndex]? with
              | none => ⟨g1, .panic⟩
              | some atTarget =>
                if atTarget.PlayerID = g1.Player1.ID then
                  let r := g1.Player1.Hand.append g1.Dealt card
                  ⟨{ g1 with Dealt := r.1, Player1 := { g1.Player1 with Hand := r.2 } }, .ok⟩
                else
                  let r := g1.Player2.Hand.append g1.Dealt card
                  ⟨{ g1 with Dealt := r.1, Player2 := { g1.Player2 with Hand := r.2 } }, .ok⟩
            else ⟨g, .err "invalid action"⟩

/-- Go: `DestroyCard(gameID, playerID, cardID)`. -/
def DestroyCard (g : GameState) (playerID : String) (cardID : Int) : Result :=
  if g.Phase ≠ .PhasePlaying then ⟨g, .err "game is not in playing phase"⟩
  else if g.CurrentPlayerID ≠ playerID then ⟨g, .err "not your turn"⟩
  else
    match findInHand ((actingHand g playerID).toList g.Dealt) cardID with
    | none => ⟨g, .err "card not in hand"⟩
    | some (index, destroyedCard) =>
      let g1 := setActingHand g playerID ((actingHand g playerID).removeAt g.Dealt index)
      let g2 := { g1 with Trash := g1.Trash ++ [destroyedCard] }
      ⟨checkBattleEnd g2, .ok⟩

/-- Go: the check `Player1.Score >= 12 || Player2.Score >= 12` that ends
`Withdraw` and `calculateBattleWinner`. -/
def checkGameOver (g : GameState) : GameState :=
  if g.Player1.Score ≥ 12 ∨ g.Player2.Score ≥ 12 then
    { g with Phase := .PhaseGameOver }
  else g

/-- Go: `Withdraw(gameID, playerID)`. -/
def Withdraw (g : GameState) (playerID : String) : Result :=
  if g.Phase ≠ .PhasePlaying then ⟨g, .err "cannot withdraw in current phase"⟩
  else
    let g1 := { g with WithdrewPlayerID := playerID, Phase := .PhaseScoring }
    let cardsRemaining : Int :=
      if playerID = g1.Player1.ID then g1.Player1.Hand.len else g1.Player2.Hand.len
    let isFirstPlayer : Bool := playerID = g1.FirstPlayerID
    let vpAwarded := calculateWithdrawalVP isFirstPlayer cardsRemaining
    let g2 :=
      if playerID = g1.Player1.ID then
        { g1 with Player2 := { g1.Player2 with Score := g1.Player2.Score + vpAwarded } }
      else
        { g1 with Player1 := { g1.Player1 with Score := g1.Player1.Score + vpAwarded } }
    ⟨checkGameOver g2, .ok⟩

/-- Go: the first loop of `calculateBattleWinner`: the theaters won by each
player; `none` when a theater has no score entry (the nil pointer is
dereferenced). -/
def countWins (ts : List (TheaterType × TheaterScore)) :
    List TheaterType → Int × Int → Option (Int × Int)
  | [], wins => some wins
  | theater :: rest, wins =>
    match lookupKey ts theater with
    | none => none
    | some score =>
      if score.Player1Total > score.Player2Total then
        countWins ts rest (wins.1 + 1, wins.2)
      else if score.Player2Total > score.Player1Total then
        countWins ts rest (wins.1, wins.2 + 1)
      else countWins ts rest wins

/-- Go: `if player1Wins >= 2 { game.Player1.Score += 6 } else if player2Wins
>= 2 { game.Player2.Score += 6 }` in `calculateBattleWinner`. -/
def awardMajority (g : GameState) (player1Wins player2Wins : Int) : GameState :=
  if player1Wins ≥ 2 then
    { g with Player1 := { g.Player1 with Score := g.Player1.Score + 6 } }
  else if player2Wins ≥ 2 then
    { g with Player2 := { g.Player2 with Score := g.Player2.Score + 6 } }
  else g

/-- Go: `calculateBattleWinner(game)`. -/
def calculateBattleWinner (g : GameState) : Result :=
  match countWins (g.TheaterScores.getD []) [Air, Land, Sea] (0, 0) with
  | none => ⟨g, .panic⟩
  | some wins => ⟨checkGameOver (awardMajority g wins.1 wins.2), .ok⟩

/-- Go: the body of `for theater, score := range scores` in
`UpdateTheaterScores`: create the entry if it is missing, then set the
submitting player's total. -/
def recordScore (isPlayer1 : Bool) (ts : List (TheaterType × TheaterScore))
    (entry : TheaterType × Int) : List (TheaterType × TheaterScore) :=
  let old := (lookupKey ts entry.1).getD ⟨0, 0⟩
  if isPlayer1 then storeKey ts entry.1 ⟨entry.2, old.Player2Total⟩
  else storeKey ts entry.1 ⟨old.Player1Total, entry.2⟩

/-- Go: the loop computing `allScored` in `UpdateTheaterScores`, with its
`break` at the first theater that has no entry or a `0`/`0` entry. -/
def allScoredLoop (ts : List (TheaterType × TheaterScore)) : List TheaterType → Bool
  | [] => true
  | theater :: rest =>
    match lookupKey ts theater with
    | none => false
    | some score =>
      if score.Player1Total = 0 ∧ score.Player2Total = 0 then false
      else allScoredLoop ts rest

/-- Go: `UpdateTheaterScores(gameID, playerID, scores)`; the submitted map is
the list of its entries. -/
def UpdateTheaterScores (g : GameState) (playerID : String)
    (scores : List (TheaterType × Int)) : Result :=
  if g.Phase ≠ .PhaseScoring then ⟨g, .err "game is not in scoring phase"⟩
  else if g.WithdrewPlayerID ≠ "" then ⟨g, .ok⟩
  else
    let ts := scores.foldl (recordScore (playerID = g.Player1.ID)) (g.TheaterScores.getD [])
    let g1 := { g with TheaterScores := some ts }
    if allScoredLoop ts [Air, Land, Sea] then calculateBattleWinner g1
    else ⟨g1, .ok⟩

/-- Go: `rotateTheaterOrder(order)`. -/
def rotateTheaterOrder (order : List TheaterType) : List TheaterType :=
  match order.getLast? with
  | none => [Air, Land, Sea]
  | some last => last :: order.dropLast

/-- Go: `setupNextBattle(game)`; `picks` are the values drawn by the shuffle. -/
def setupNextBattle (g : GameState) (picks : List Nat) : GameState :=
  let order := if g.TheaterOrder.length = 0 then [Air, Land, Sea] else g.TheaterOrder
  let firstPlayerID :=
    if g.FirstPlayerID = g.Player1.ID then g.Player2.ID else g.Player1.ID
  let deck := shuffleDeck picks AllCards
  { g with
    TheaterOrder := rotateTheaterOrder order
    FirstPlayerID := firstPlayerID
    Player1 := { g.Player1 with Hand := dealHand1 deck }
    Player2 := { g.Player2 with Hand := dealHand2 deck }
    Dealt := deck
    Deck := dealDeck deck
    Theaters := emptyTheaters
    Trash := []
    CurrentPlayerID := firstPlayerID
    Phase := .PhasePlaying
    BattleNumber := g.BattleNumber + 1
    WithdrewPlayerID := ""
    TheaterScores := none }

/-- Go: `StartNextBattle(gameID)`. -/
def StartNextBattle (g : GameState) (picks : List Nat) : Result :=
  if g.Phase = .PhaseGameOver then ⟨g, .err "game is over"⟩
  else if g.Phase ≠ .PhaseScoring then ⟨g, .err "battle is not finished"⟩
  else ⟨setupNextBattle g picks, .ok⟩

/-- Go: `StartNextGame(gameID)`. -/
def StartNextGame (g : GameState) (picks : List Nat) : Result :=
  if g.Phase ≠ .PhaseGameOver then ⟨g, .err "game is not over"⟩
  else
    let firstPlayerID :=
      if g.FirstPlayerID = g.Player1.ID then g.Player2.ID else g.Player1.ID
    let deck := shuffleDeck picks AllCards
    ⟨{ g with
        Player1 := { g.Player1 with Score := 0, Hand := dealHand1 deck }
        Player2 := { g.Player2 with Score := 0, Hand := dealHand2 deck }
        TheaterOrder := [Air, Land, Sea]
        TheaterScores := none
        WithdrewPlayerID := ""
        FirstPlayerID := firstPlayerID
        Dealt := deck
        Deck := dealDeck deck
        Theaters := emptyTheaters
        Trash := []
        CurrentPlayerID := firstPlayerID
        Phase := .PhasePlaying
        BattleNumber := 1 }, .ok⟩

/-! ## Calls and runs -/

/-- A call of one of the nine operations, with its arguments. -/
inductive Op where
  | playCard (playerID : String) (cardID : Int) (theater : TheaterType) (faceUp : Bool)
  | endTurn (playerID : String)
  | drawCard (playerID : String)
  | manipulateCard (playerID : String) (theater : TheaterType) (cardID : Int)
      (action : String)
  | destroyCard (playerID : String) (cardID : Int)
  | withdraw (playerID : String)
  | updateTheaterScores (playerID : String) (scores : List (TheaterType × Int))
  | startNextBattle (picks : List Nat)
  | startNextGame (picks : List Nat)
deriving DecidableEq, Repr

/-- The call `op` made on the stored record `g`. -/
def Op.call (g : GameState) : Op → Result
  | .playCard playerID cardID theater faceUp => PlayCard g playerID cardID theater faceUp
  | .endTurn playerID => EndTurn g playerID
  | .drawCard playerID => DrawCard g playerID
  | .manipulateCard playerID theater cardID action =>
    ManipulateCard g playerID theater cardID action
  | .destroyCard playerID cardID => DestroyCard g playerID cardID
  | .withdraw playerID => Withdraw g playerID
  | .updateTheaterScores playerID scores => UpdateTheaterScores g playerID scores
  | .startNextBattle picks => StartNextBattle g picks
  | .startNextGame picks => StartNextGame g picks

/-- The stored record after a sequence of calls, successful or failing. -/
def runOps (g : GameState) : List Op → GameState
  | [] => g
  | op :: rest => runOps (op.call g).game rest

/-- The cards of the theater stored under `theater`. -/
def theaterCards (g : GameState) (theater : TheaterType) : List Card :=
  match lookupKey g.Theaters theater with
  | none => []
  | some theaterObj => theaterObj.Cards.map (fun p => p.Card)

/-- Every card the match holds: both hands, the deck, the trash and the
three theaters. -/
def cardsInPlay (g : GameState) : List Card :=
  g.Player1.Hand.toList g.Dealt ++ g.Player2.Hand.toList g.Dealt
    ++ g.Deck.toList g.Dealt ++ g.Trash
    ++ theaterCards g Air ++ theaterCards g Land ++ theaterCards g Sea

/-! ## Concrete matches -/

/-- A room with the two participants `p1` and `p2`. -/
def demoRoom : Room := ⟨"R", "p1", "Ann", "p2", "Bob"⟩

/-- Random values for which every step of the shuffle swaps a place with
itself, so that the dealt array is the catalogue in its order. -/
def keepOrder : List Nat := [17, 16, 15, 14, 13, 12, 11, 10, 9, 8, 7, 6, 5, 4, 3, 2, 1]

/-- The match right after `startNewGame`: `p1` goes first, holds cards 1..6,
`p2` holds 7..12 and the deck holds 13..18. -/
def freshGame : GameState := startNewGame demoRoom "G" 0 keepOrder

/-- A match in `Scoring` without a withdrawal, holding the totals Air (5,3),
Land (2,4), Sea (6,6). -/
def splitBattle : GameState :=
  { freshGame with
    Phase := .PhaseScoring
    TheaterScores := some [(Air, ⟨5, 3⟩), (Land, ⟨2, 4⟩), (Sea, ⟨6, 6⟩)] }

/-- A match in `Scoring` after both hands ran empty: no withdrawal and an
empty map of totals; `p1` has then submitted Air 5, Land 2, Sea 0. -/
def halfScored : GameState :=
  { freshGame with
    Phase := .PhaseScoring
    TheaterScores := some [(Air, ⟨5, 0⟩), (Land, ⟨2, 0⟩), (Sea, ⟨0, 0⟩)] }

/-- The fresh match after `p1`, who is to move, has drawn twice. -/
def afterTwoDraws : GameState := runOps freshGame [.drawCard "p1", .drawCard "p1"]

/-- A match in `Playing` in which `p1`, to move, holds the last card (card 1)
and `p2` holds none. -/
def lastCard : GameState :=
  { freshGame with
    Player1 := { freshGame.Player1 with Hand := .view 0 1 18 }
    Player2 := { freshGame.Player2 with Hand := .view 6 0 12 }
    Deck := .view 18 0 0 }

/-- The fresh match after `p1` has played card 1 to Air, ended the turn, and
`p2` has played card 7 to Air: Air holds card 1 of `p1` under card 7 of `p2`,
and `p2` is to move. -/
def sharedAir : GameState :=
  runOps freshGame [.playCard "p1" 1 Air true, .endTurn "p1", .playCard "p2" 7 Air true]

/-- The Air theater of `sharedAir`. -/
def airStack : Theater :=
  ⟨Air, [⟨⟨1, Air, 1, "Air Drop"⟩, true, "p1"⟩, ⟨⟨7, Land, 1, "Ambush"⟩, true, "p2"⟩]⟩

/-- The fresh match after `p1` has withdrawn: `Scoring`, `p2` has 2 points. -/
def withdrawn : GameState := (Withdraw freshGame "p1").game

/-- A match that `p1`'s withdrawal has ended: `p2` stood at 11 points. -/
def matchOver : GameState :=
  (Withdraw { freshGame with Player2 := { freshGame.Player2 with Score := 11 } } "p1").game

/-- The calls by which both players empty their hands in the fresh match:
`p1` destroys cards 1..6 and ends the turn, `p2` destroys cards 7..12. -/
def emptyHands : List Op :=
  [.destroyCard "p1" 1, .destroyCard "p1" 2, .destroyCard "p1" 3, .destroyCard "p1" 4,
   .destroyCard "p1" 5, .destroyCard "p1" 6, .endTurn "p1",
   .destroyCard "p2" 7, .destroyCard "p2" 8, .destroyCard "p2" 9, .destroyCard "p2" 10,
   .destroyCard "p2" 11, .destroyCard "p2" 12]

/-- The fresh match after both hands ran empty: `Scoring`, no withdrawal, an
empty map of totals, both scores 0. -/
def battleDone : GameState := runOps freshGame emptyHands

/-- The match `battleDone` after `p1` has submitted Air 5, Land 4 and `p2` has
submitted Air 3, Land 2: nothing is recorded for Sea, both scores are 0. -/
def twoRecorded : GameState :=
  runOps battleDone [.updateTheaterScores "p1" [(Air, 5), (Land, 4)],
    .updateTheaterScores "p2" [(Air, 3), (Land, 2)]]

/-- The calls that bring the fresh match to `p1` holding card 6 only and `p2`
holding nothing, with `p1` to move. -/
def oneCardLeft : List Op :=
  [.destroyCard "p1" 1, .destroyCard "p1" 2, .destroyCard "p1" 3, .destroyCard "p1" 4,
   .destroyCard "p1" 5, .endTurn "p1",
   .destroyCard "p2" 7, .destroyCard "p2" 8, .destroyCard "p2" 9, .destroyCard "p2" 10,
   .destroyCard "p2" 11, .destroyCard "p2" 12, .endTurn "p2"]

/-- Go: the least value of the 64-bit `int`. -/
def minInt64 : Int := -9223372036854775808

/-- Go: the greatest value of the 64-bit `int`. -/
def maxInt64 : Int := 9223372036854775807

/-- The ids of a list of cards. -/
def cardIDs (xs : List Card) : List Int := xs.map (fun c => c.ID)

/-! ## Theorems -/

/-- C1, on the code: card conservation breaks at the first draw.  In the match
right after `startNewGame` (18 distinct cards, `p1` to move), `DrawCard` by
`p1` succeeds and leaves card 13 both in `p1`'s and in `p2`'s hand while card
7 is gone: the cards in play are no longer a permutation of `AllCards`. -/
theorem C1_draw_breaks_conservation :
    cardsInPlay freshGame = AllCards ∧
    freshGame.CurrentPlayerID = "p1" ∧
    (DrawCard freshGame "p1").out = .ok ∧
    cardIDs (cardsInPlay (runOps freshGame [.drawCard "p1"]))
      = [1, 2, 3, 4, 5, 6, 13, 13, 8, 9, 10, 11, 12, 14, 15, 16, 17, 18] ∧
    ¬ (cardsInPlay (runOps freshGame [.drawCard "p1"])).Perm AllCards := by
  decide

/-- C2: phase and turn gating of `PlayCard`, `EndTurn`, `DrawCard`,
`ManipulateCard` and `DestroyCard`.  Outside `Playing` each of them fails with
"game is not in playing phase"; in `Playing`, called by anyone but the current
player, each fails with "not your turn"; in both cases the record is returned
as it was, whatever the cards, the deck, the theater and the other arguments
are.  A call that succeeds was made in `Playing` by the current player. -/
theorem C2_phase_and_turn_gating (g : GameState) (playerID : String) (cardID : Int)
    (theater : TheaterType) (faceUp : Bool) (action : String) :
    (g.Phase ≠ .PhasePlaying →
      PlayCard g playerID cardID theater faceUp = ⟨g, .err "game is not in playing phase"⟩ ∧
      EndTurn g playerID = ⟨g, .err "game is not in playing phase"⟩ ∧
      DrawCard g playerID = ⟨g, .err "game is not in playing phase"⟩ ∧
      ManipulateCard g playerID theater cardID action
        = ⟨g, .err "game is not in playing phase"⟩ ∧
      DestroyCard g playerID cardID = ⟨g, .err "game is not in playing phase"⟩) ∧
    (g.Phase = .PhasePlaying → playerID ≠ g.CurrentPlayerID →
      PlayCard g playerID cardID theater faceUp = ⟨g, .err "not your turn"⟩ ∧
      EndTurn g playerID = ⟨g, .err "not your turn"⟩ ∧
      DrawCard g playerID = ⟨g, .err "not your turn"⟩ ∧
      ManipulateCard g playerID theater cardID action = ⟨g, .err "not your turn"⟩ ∧
      DestroyCard g playerID cardID = ⟨g, .err "not your turn"⟩) ∧
    (((PlayCard g playerID cardID theater faceUp).out = .ok ∨
      (EndTurn g playerID).out = .ok ∨
      (DrawCard g playerID).out = .ok ∨
      (ManipulateCard g playerID theater cardID action).out = .ok ∨
      (DestroyCard g playerID cardID).out = .ok) →
      g.Phase = .PhasePlaying ∧ playerID = g.CurrentPlayerID) := by
  refine ⟨?_, ?_, ?_⟩
  · intro h
    simp [PlayCard, EndTurn, DrawCard, ManipulateCard, DestroyCard, h]
  · intro h hne
    have hne2 : ¬ g.CurrentPlayerID = playerID := fun e => hne e.symm
    simp [PlayCard, EndTurn, DrawCard, ManipulateCard, DestroyCard, h, hne2]
  · intro h
    by_cases hp : g.Phase = .PhasePlaying
    · by_cases hc : g.CurrentPlayerID = playerID
      · exact ⟨hp, hc.symm⟩
      · exfalso
        simp [PlayCard, EndTurn, DrawCard, ManipulateCard, DestroyCard, hp, hc] at h
    · exfalso
      simp [PlayCard, EndTurn, DrawCard, ManipulateCard, DestroyCard, hp] at h

/-- C2, witness: after `p1` has withdrawn the match is in `Scoring` and `EndTurn`
fails on the phase; in the fresh match `p2`, who is not to move, is refused
by `DrawCard`; and `p1`'s successful `DrawCard` was made in `Playing`. -/
theorem C2_phase_and_turn_gating_witness :
    EndTurn (Withdraw freshGame "p1").game "p1"
      = ⟨(Withdraw freshGame "p1").game, .err "game is not in playing phase"⟩ ∧
    DrawCard freshGame "p2" = ⟨freshGame, .err "not your turn"⟩ ∧
    (freshGame.Phase = .PhasePlaying ∧ "p1" = freshGame.CurrentPlayerID) :=
  ⟨((C2_phase_and_turn_gating (Withdraw freshGame "p1").game "p1" 1 Air true "flip").1
      (by decide)).2.1,
   ((C2_phase_and_turn_gating freshGame "p2" 1 Air true "flip").2.1
      (by decide) (by decide)).2.2.1,
   (C2_phase_and_turn_gating freshGame "p1" 1 Air true "flip").2.2
      (Or.inr (Or.inr (Or.inl (by decide))))⟩

/-- C3, on the code: a failing `PlayCard` that has already changed the record.
In the fresh match `p1`, who is to move and holds card 1, plays it to the
theater name "space".  The phase, turn and hand checks pass, the card is taken
out of the hand, and only then the missing theater is dereferenced: the call
ends in a panic, the stored record differs from the one before the call, and
card 1 is in no hand, deck, trash or theater any more. -/
theorem C3_play_to_unknown_theater_mutates :
    freshGame.Phase = .PhasePlaying ∧
    freshGame.CurrentPlayerID = "p1" ∧
    cardIDs (freshGame.Player1.Hand.toList freshGame.Dealt) = [1, 2, 3, 4, 5, 6] ∧
    (PlayCard freshGame "p1" 1 "space" true).out = .panic ∧
    (PlayCard freshGame "p1" 1 "space" true).game ≠ freshGame ∧
    cardIDs ((PlayCard freshGame "p1" 1 "space" true).game.Player1.Hand.toList
      (PlayCard freshGame "p1" 1 "space" true).game.Dealt) = [2, 3, 4, 5, 6] ∧
    (1 : Int) ∉ cardIDs (cardsInPlay (PlayCard freshGame "p1" 1 "space" true).game) := by
  decide

/-- C4: the withdrawal payout table.  For `n ≥ 0` cards remaining, the first
player's withdrawal pays 2 for `n ≥ 4`, 3 for `n` 2 or 3, 4 for `n = 1`, 6 for
`n = 0`; the second player's pays 2 for `n ≥ 5`, 3 for `n` 3 or 4, 4 for
`n = 2`, 6 for `n` 0 or 1; the four cases named by the specification hold and
every payout is one of 2, 3, 4, 6. -/
theorem C4_withdrawal_payout_table (n : Int) (hn : 0 ≤ n) :
    (4 ≤ n → calculateWithdrawalVP true n = 2) ∧
    (n = 2 ∨ n = 3 → calculateWithdrawalVP true n = 3) ∧
    (n = 1 → calculateWithdrawalVP true n = 4) ∧
    (n = 0 → calculateWithdrawalVP true n = 6) ∧
    (5 ≤ n → calculateWithdrawalVP false n = 2) ∧
    (n = 3 ∨ n = 4 → calculateWithdrawalVP false n = 3) ∧
    (n = 2 → calculateWithdrawalVP false n = 4) ∧
    (n = 0 ∨ n = 1 → calculateWithdrawalVP false n = 6) ∧
    calculateWithdrawalVP true 4 = 2 ∧
    calculateWithdrawalVP true 1 = 4 ∧
    calculateWithdrawalVP false 0 = 6 ∧
    calculateWithdrawalVP false 5 = 2 ∧
    (∀ first : Bool, calculateWithdrawalVP first n ∈ ({2, 3, 4, 6} : Set Int)) := by
  refine ⟨?_, ?_, ?_, ?_, ?_, ?_, ?_, ?_, by decide, by decide, by decide, by decide, ?_⟩
  · intro h
    simp [calculateWithdrawalVP, h]
  · intro h
    rcases h with h | h <;> subst h <;> decide
  · intro h
    subst h
    decide
  · intro h
    subst h
    decide
  · intro h
    simp [calculateWithdrawalVP, h]
  · intro h
    rcases h with h | h <;> subst h <;> decide
  · intro h
    subst h
    decide
  · intro h
    rcases h with h | h <;> subst h <;> decide
  · intro first
    cases first <;> simp only [calculateWithdrawalVP] <;> split_ifs <;> simp

/-- C4, witness: with 7 cards left both tables pay 2. -/
theorem C4_withdrawal_payout_table_witness :
    (0 : Int) ≤ 7 ∧ calculateWithdrawalVP true 7 = 2 ∧ calculateWithdrawalVP false 7 = 2 :=
  ⟨by decide, (C4_withdrawal_payout_table 7 (by decide)).1 (by decide),
    (C4_withdrawal_payout_table 7 (by decide)).2.2.2.2.1 (by decide)⟩

/-- C5: the effect of `Withdraw`.  In `Playing`, with two distinct participant
ids and `playerID` one of them (its turn or not), the call succeeds, records
`WithdrewPlayerID = playerID`, adds the payout for (did `playerID` go first,
number of cards in the withdrawer's hand) to the opponent's score and nothing
to the withdrawer's, leaves hands, dealt array, deck, trash, theaters,
`CurrentPlayerID` and `BattleNumber` as they were, and ends in `GameOver` if a
resulting score is 12 or more and in `Scoring` otherwise.  In any other phase
the call fails with "cannot withdraw in current phase" and changes nothing. -/
theorem C5_withdraw_effect (g : GameState) (playerID : String) :
    (g.Phase = .PhasePlaying → g.Player1.ID ≠ g.Player2.ID →
      (playerID = g.Player1.ID ∨ playerID = g.Player2.ID) →
      (Withdraw g playerID).out = .ok ∧
      (Withdraw g playerID).game.WithdrewPlayerID = playerID ∧
      (playerID = g.Player1.ID →
        (Withdraw g playerID).game.Player2.Score = g.Player2.Score +
          calculateWithdrawalVP (decide (playerID = g.FirstPlayerID)) g.Player1.Hand.len ∧
        (Withdraw g playerID).game.Player1.Score = g.Player1.Score) ∧
      (playerID = g.Player2.ID →
        (Withdraw g playerID).game.Player1.Score = g.Player1.Score +
          calculateWithdrawalVP (decide (playerID = g.FirstPlayerID)) g.Player2.Hand.len ∧
        (Withdraw g playerID).game.Player2.Score = g.Player2.Score) ∧
      (Withdraw g playerID).game.Player1.Hand = g.Player1.Hand ∧
      (Withdraw g playerID).game.Player2.Hand = g.Player2.Hand ∧
      (Withdraw g playerID).game.Dealt = g.Dealt ∧
      (Withdraw g playerID).game.Deck = g.Deck ∧
      (Withdraw g playerID).game.Trash = g.Trash ∧
      (Withdraw g playerID).game.Theaters = g.Theaters ∧
      (Withdraw g playerID).game.CurrentPlayerID = g.CurrentPlayerID ∧
      (Withdraw g playerID).game.BattleNumber = g.BattleNumber ∧
      ((12 ≤ (Withdraw g playerID).game.Player1.Score ∨
          12 ≤ (Withdraw g playerID).game.Player2.Score) →
        (Withdraw g playerID).game.Phase = .PhaseGameOver) ∧
      (¬ (12 ≤ (Withdraw g playerID).game.Player1.Score ∨
          12 ≤ (Withdraw g playerID).game.Player2.Score) →
        (Withdraw g playerID).game.Phase = .PhaseScoring)) ∧
    (g.Phase ≠ .PhasePlaying →
      Withdraw g playerID = ⟨g, .err "cannot withdraw in current phase"⟩) := by
  refine ⟨?_, ?_⟩
  · intro hphase hdist hpid
    rcases hpid with h1 | h2
    · have hne : ¬ playerID = g.Player2.ID := fun e => hdist (h1.symm.trans e)
      simp only [Withdraw, checkGameOver, hphase, h1]
      split_ifs <;> simp_all
    · have hne : ¬ playerID = g.Player1.ID := fun e => hdist (e.symm.trans h2)
      have hne2 : ¬ g.Player2.ID = g.Player1.ID := fun e => hdist e.symm
      simp only [Withdraw, checkGameOver, hphase, h2]
      split_ifs <;> simp_all
  · intro h
    simp [Withdraw, h]

/-- C5, witness: in the fresh match `p2`, who went second, is not to move and
holds 6 cards, withdraws: the call succeeds and `p1` gets the payout; a second
withdrawal, now in `Scoring`, is refused. -/
theorem C5_withdraw_effect_witness :
    (Withdraw freshGame "p2").out = .ok ∧
    (Withdraw freshGame "p2").game.Player1.Score = freshGame.Player1.Score +
      calculateWithdrawalVP (decide ("p2" = freshGame.FirstPlayerID))
        freshGame.Player2.Hand.len ∧
    Withdraw (Withdraw freshGame "p2").game "p1"
      = ⟨(Withdraw freshGame "p2").game, .err "cannot withdraw in current phase"⟩ :=
  ⟨((C5_withdraw_effect freshGame "p2").1 (by decide) (by decide)
      (Or.inr (by decide))).1,
   (((C5_withdraw_effect freshGame "p2").1 (by decide) (by decide)
      (Or.inr (by decide))).2.2.2.1 (by decide)).1,
   (C5_withdraw_effect (Withdraw freshGame "p2").game "p1").2 (by decide)⟩

/-- The scores after `checkGameOver` are those before it. -/
theorem checkGameOver_scores (g : GameState) :
    (checkGameOver g).Player1.Score = g.Player1.Score ∧
    (checkGameOver g).Player2.Score = g.Player2.Score := by
  unfold checkGameOver
  split_ifs <;> exact ⟨rfl, rfl⟩

/-- The phase after `checkGameOver`: `GameOver` at the threshold, else the
phase before. -/
theorem checkGameOver_phase (g : GameState) :
    (12 ≤ g.Player1.Score ∨ 12 ≤ g.Player2.Score →
      (checkGameOver g).Phase = .PhaseGameOver) ∧
    (¬ (12 ≤ g.Player1.Score ∨ 12 ≤ g.Player2.Score) →
      (checkGameOver g).Phase = g.Phase) := by
  unfold checkGameOver
  constructor
  · intro h
    rw [if_pos h]
  · intro h
    rw [if_neg h]

/-- The scores after `awardMajority`: at most one has grown, by 6; nothing
else changes. -/
theorem awardMajority_effect (g : GameState) (w1 w2 : Int) :
    (2 ≤ w1 → awardMajority g w1 w2
      = { g with Player1 := { g.Player1 with Score := g.Player1.Score + 6 } }) ∧
    (¬ 2 ≤ w1 → 2 ≤ w2 → awardMajority g w1 w2
      = { g with Player2 := { g.Player2 with Score := g.Player2.Score + 6 } }) ∧
    (¬ 2 ≤ w1 → ¬ 2 ≤ w2 → awardMajority g w1 w2 = g) := by
  unfold awardMajority
  refine ⟨?_, ?_, ?_⟩
  · intro h
    rw [if_pos h]
  · intro h1 h2
    rw [if_neg h1, if_pos h2]
  · intro h1 h2
    rw [if_neg h1, if_neg h2]

/-- The part of `awardMajority_effect` the phase rules need. -/
theorem awardMajority_scores (g : GameState) (w1 w2 : Int) :
    (awardMajority g w1 w2).Phase = g.Phase ∧
    (((awardMajority g w1 w2).Player1.Score = g.Player1.Score + 6 ∧
        (awardMajority g w1 w2).Player2.Score = g.Player2.Score) ∨
      ((awardMajority g w1 w2).Player1.Score = g.Player1.Score ∧
        (awardMajority g w1 w2).Player2.Score = g.Player2.Score + 6) ∨
      ((awardMajority g w1 w2).Player1.Score = g.Player1.Score ∧
        (awardMajority g w1 w2).Player2.Score = g.Player2.Score)) := by
  unfold awardMajority
  split_ifs
  · exact ⟨rfl, Or.inl ⟨rfl, rfl⟩⟩
  · exact ⟨rfl, Or.inr (Or.inl ⟨rfl, rfl⟩)⟩
  · exact ⟨rfl, Or.inr (Or.inr ⟨rfl, rfl⟩)⟩

/-- What a `calculateBattleWinner` that returns has done: at most one score
has grown, by 6, and the phase is `GameOver` at the threshold and the phase
before otherwise. -/
theorem calculateBattleWinner_ok (g : GameState) (hok : (calculateBattleWinner g).out = .ok) :
    (((calculateBattleWinner g).game.Player1.Score = g.Player1.Score + 6 ∧
        (calculateBattleWinner g).game.Player2.Score = g.Player2.Score) ∨
      ((calculateBattleWinner g).game.Player1.Score = g.Player1.Score ∧
        (calculateBattleWinner g).game.Player2.Score = g.Player2.Score + 6) ∨
      ((calculateBattleWinner g).game.Player1.Score = g.Player1.Score ∧
        (calculateBattleWinner g).game.Player2.Score = g.Player2.Score)) ∧
    ((12 ≤ (calculateBattleWinner g).game.Player1.Score ∨
        12 ≤ (calculateBattleWinner g).game.Player2.Score) →
      (calculateBattleWinner g).game.Phase = .PhaseGameOver) ∧
    (¬ (12 ≤ (calculateBattleWinner g).game.Player1.Score ∨
        12 ≤ (calculateBattleWinner g).game.Player2.Score) →
      (calculateBattleWinner g).game.Phase = g.Phase) := by
  unfold calculateBattleWinner at hok ⊢
  split at hok
  · simp at hok
  · rename_i wins hw
    simp only
    have hs := checkGameOver_scores (awardMajority g wins.1 wins.2)
    have hp := checkGameOver_phase (awardMajority g wins.1 wins.2)
    have ha := awardMajority_scores g wins.1 wins.2
    rw [hs.1, hs.2]
    refine ⟨ha.2, hp.1, ?_⟩
    intro h
    rw [hp.2 h, ha.1]

/-- The submitted totals as recorded by `UpdateTheaterScores`. -/
theorem UpdateTheaterScores_scoring (g : GameState) (playerID : String)
    (scores : List (TheaterType × Int)) (hp : g.Phase = .PhaseScoring)
    (hw : g.WithdrewPlayerID = "") :
    (allScoredLoop (scores.foldl (recordScore (playerID = g.Player1.ID))
        (g.TheaterScores.getD [])) [Air, Land, Sea] = true →
      UpdateTheaterScores g playerID scores = calculateBattleWinner
        { g with TheaterScores := some (scores.foldl (recordScore (playerID = g.Player1.ID))
            (g.TheaterScores.getD [])) }) ∧
    (allScoredLoop (scores.foldl (recordScore (playerID = g.Player1.ID))
        (g.TheaterScores.getD [])) [Air, Land, Sea] = false →
      UpdateTheaterScores g playerID scores =
        ⟨{ g with TheaterScores := some (scores.foldl (recordScore (playerID = g.Player1.ID))
            (g.TheaterScores.getD [])) }, .ok⟩) := by
  constructor
  · intro h
    simp [UpdateTheaterScores, hp, hw, h]
  · intro h
    simp [UpdateTheaterScores, hp, hw, h]

/-- C6: threshold termination.  After a successful `Withdraw` or
`UpdateTheaterScores`, if a player's score has grown and is 12 or more the
phase is `GameOver`; if a score has changed and both resulting scores are
below 12 the phase is `Scoring`. -/
theorem C6_threshold_termination (g : GameState) (playerID : String)
    (scores : List (TheaterType × Int)) (r : Result)
    (hcall : r = Withdraw g playerID ∨ r = UpdateTheaterScores g playerID scores)
    (hok : r.out = .ok) :
    (((g.Player1.Score < r.game.Player1.Score ∧ 12 ≤ r.game.Player1.Score) ∨
      (g.Player2.Score < r.game.Player2.Score ∧ 12 ≤ r.game.Player2.Score)) →
      r.game.Phase = .PhaseGameOver) ∧
    ((r.game.Player1.Score ≠ g.Player1.Score ∨ r.game.Player2.Score ≠ g.Player2.Score) →
      r.game.Player1.Score < 12 → r.game.Player2.Score < 12 →
      r.game.Phase = .PhaseScoring) := by
  rcases hcall with rfl | rfl
  · by_cases hp : g.Phase = .PhasePlaying
    · simp only [Withdraw, hp]
      simp only [ne_eq, not_true_eq_false, if_false]
      generalize hg2 : (if playerID = g.Player1.ID then _ else _ : GameState) = g2
      have hph : g2.Phase = .PhaseScoring := by
        rw [← hg2]
        split_ifs <;> rfl
      have hs := checkGameOver_scores g2
      have hc := checkGameOver_phase g2
      rw [hs.1, hs.2]
      constructor
      · rintro (h | h)
        · exact hc.1 (Or.inl h.2)
        · exact hc.1 (Or.inr h.2)
      · intro _ h1 h2
        rw [hc.2 (by omega), hph]
    · simp [Withdraw, hp] at hok
  · by_cases hp : g.Phase = .PhaseScoring
    · by_cases hw : g.WithdrewPlayerID = ""
      · have hu := UpdateTheaterScores_scoring g playerID scores hp hw
        cases hall : allScoredLoop (scores.foldl (recordScore (playerID = g.Player1.ID))
            (g.TheaterScores.getD [])) [Air, Land, Sea]
        · rw [hu.2 hall]
          simp
        · rw [hu.1 hall] at hok ⊢
          have hb := calculateBattleWinner_ok _ hok
          simp only at hb
          constructor
          · rintro (h | h)
            · exact hb.2.1 (Or.inl h.2)
            · exact hb.2.1 (Or.inr h.2)
          · intro _ h1 h2
            rw [hb.2.2 (by omega), hp]
      · simp [UpdateTheaterScores, hp, hw]
    · simp [UpdateTheaterScores, hp] at hok

/-- C6, witness: `p1`, who went first, withdraws with 6 cards while `p2` stands
at 11 points; `p2` gets 2 more, reaches 13, and the match is over. -/
theorem C6_threshold_termination_witness :
    (Withdraw { freshGame with Player2 := { freshGame.Player2 with Score := 11 } } "p1").game.Phase
      = .PhaseGameOver :=
  (C6_threshold_termination
    { freshGame with Player2 := { freshGame.Player2 with Score := 11 } } "p1" []
    (Withdraw { freshGame with Player2 := { freshGame.Player2 with Score := 11 } } "p1")
    (Or.inl rfl) (by decide)).1 (Or.inr (by decide))

/-- The theaters counted by `countWins` when all three have an entry: a
player has two or more wins exactly if strictly ahead in two theaters. -/
theorem countWins_three (ts : List (TheaterType × TheaterScore)) (a l s : TheaterScore)
    (ha : lookupKey ts Air = some a) (hl : lookupKey ts Land = some l)
    (hs : lookupKey ts Sea = some s) :
    ∃ wins : Int × Int, countWins ts [Air, Land, Sea] (0, 0) = some wins ∧
      (2 ≤ wins.1 ↔
        ((a.Player1Total > a.Player2Total ∧ l.Player1Total > l.Player2Total) ∨
         (a.Player1Total > a.Player2Total ∧ s.Player1Total > s.Player2Total) ∨
         (l.Player1Total > l.Player2Total ∧ s.Player1Total > s.Player2Total))) ∧
      (2 ≤ wins.2 ↔
        ((a.Player2Total > a.Player1Total ∧ l.Player2Total > l.Player1Total) ∨
         (a.Player2Total > a.Player1Total ∧ s.Player2Total > s.Player1Total) ∨
         (l.Player2Total > l.Player1Total ∧ s.Player2Total > s.Player1Total))) := by
  simp only [countWins, ha, hl, hs]
  split_ifs <;> refine ⟨_, rfl, ?_, ?_⟩ <;> simp <;> omega

/-- C7: majority scoring.  When `TheaterScores` holds a pair of totals for each
of Air, Land and Sea, `calculateBattleWinner` returns, adds 6 to `Player1`'s
score exactly if `Player1` is strictly ahead in at least two theaters and
leaves that score alone otherwise, does the same for `Player2`, and never
awards both.  For Air (5,3), Land (2,4), Sea (6,6) with both scores below 12
it leaves the whole record, scores and phase included, as it was. -/
theorem C7_majority_scoring (g : GameState) (ts : List (TheaterType × TheaterScore))
    (a l s : TheaterScore) (hts : g.TheaterScores = some ts)
    (ha : lookupKey ts Air = some a) (hl : lookupKey ts Land = some l)
    (hs : lookupKey ts Sea = some s) :
    (calculateBattleWinner g).out = .ok ∧
    ((calculateBattleWinner g).game.Player1.Score = g.Player1.Score + 6 ↔
      ((a.Player1Total > a.Player2Total ∧ l.Player1Total > l.Player2Total) ∨
       (a.Player1Total > a.Player2Total ∧ s.Player1Total > s.Player2Total) ∨
       (l.Player1Total > l.Player2Total ∧ s.Player1Total > s.Player2Total))) ∧
    ((calculateBattleWinner g).game.Player1.Score = g.Player1.Score + 6 ∨
      (calculateBattleWinner g).game.Player1.Score = g.Player1.Score) ∧
    ((calculateBattleWinner g).game.Player2.Score = g.Player2.Score + 6 ↔
      ((a.Player2Total > a.Player1Total ∧ l.Player2Total > l.Player1Total) ∨
       (a.Player2Total > a.Player1Total ∧ s.Player2Total > s.Player1Total) ∨
       (l.Player2Total > l.Player1Total ∧ s.Player2Total > s.Player1Total))) ∧
    ((calculateBattleWinner g).game.Player2.Score = g.Player2.Score + 6 ∨
      (calculateBattleWinner g).game.Player2.Score = g.Player2.Score) ∧
    ¬ ((calculateBattleWinner g).game.Player1.Score = g.Player1.Score + 6 ∧
       (calculateBattleWinner g).game.Player2.Score = g.Player2.Score + 6) ∧
    (a = ⟨5, 3⟩ → l = ⟨2, 4⟩ → s = ⟨6, 6⟩ → g.Player1.Score < 12 → g.Player2.Score < 12 →
      (calculateBattleWinner g).game = g) := by
  obtain ⟨wins, hw, h1, h2⟩ := countWins_three ts a l s ha hl hs
  have hcall : calculateBattleWinner g
      = ⟨checkGameOver (awardMajority g wins.1 wins.2), .ok⟩ := by
    unfold calculateBattleWinner
    rw [hts, Option.getD_some, hw]
  have hsc := checkGameOver_scores (awardMajority g wins.1 wins.2)
  have hph := checkGameOver_phase (awardMajority g wins.1 wins.2)
  have haw := awardMajority_effect g wins.1 wins.2
  rw [hcall]
  simp only
  rw [hsc.1, hsc.2]
  have hnot : ¬ (2 ≤ wins.1 ∧ 2 ≤ wins.2) := by
    rw [h1, h2]
    omega
  refine ⟨by trivial, ?_, ?_, ?_, ?_, ?_, ?_⟩
  · rw [← h1]
    by_cases hw1 : 2 ≤ wins.1
    · rw [haw.1 hw1]
      simp [hw1]
    · by_cases hw2 : 2 ≤ wins.2
      · rw [haw.2.1 hw1 hw2]
        simp [hw1]
      · rw [haw.2.2 hw1 hw2]
        simp [hw1]
  · by_cases hw1 : 2 ≤ wins.1
    · rw [haw.1 hw1]
      exact Or.inl rfl
    · by_cases hw2 : 2 ≤ wins.2
      · rw [haw.2.1 hw1 hw2]
        exact Or.inr rfl
      · rw [haw.2.2 hw1 hw2]
        exact Or.inr rfl
  · rw [← h2]
    by_cases hw1 : 2 ≤ wins.1
    · have hw2 : ¬ 2 ≤ wins.2 := fun h => hnot ⟨hw1, h⟩
      rw [haw.1 hw1]
      simp [hw2]
    · by_cases hw2 : 2 ≤ wins.2
      · rw [haw.2.1 hw1 hw2]
        simp [hw2]
      · rw [haw.2.2 hw1 hw2]
        simp [hw2]
  · by_cases hw1 : 2 ≤ wins.1
    · rw [haw.1 hw1]
      exact Or.inr rfl
    · by_cases hw2 : 2 ≤ wins.2
      · rw [haw.2.1 hw1 hw2]
        exact Or.inl rfl
      · rw [haw.2.2 hw1 hw2]
        exact Or.inr rfl
  · by_cases hw1 : 2 ≤ wins.1
    · rw [haw.1 hw1]
      simp
    · by_cases hw2 : 2 ≤ wins.2
      · rw [haw.2.1 hw1 hw2]
        simp
      · rw [haw.2.2 hw1 hw2]
        simp
  · intro e1 e2 e3 hp1 hp2
    subst e1 e2 e3
    have hw1 : ¬ 2 ≤ wins.1 := by
      rw [h1]
      decide
    have hw2 : ¬ 2 ≤ wins.2 := by
      rw [h2]
      decide
    rw [haw.2.2 hw1 hw2]
    unfold checkGameOver
    rw [if_neg (by omega)]

/-- C7, witness: the totals Air (5,3), Land (2,4), Sea (6,6) of the
specification's example give one theater to each player and change nothing. -/
theorem C7_majority_scoring_witness :
    (calculateBattleWinner splitBattle).out = .ok ∧
    (calculateBattleWinner splitBattle).game = splitBattle :=
  ⟨(C7_majority_scoring splitBattle [(Air, ⟨5, 3⟩), (Land, ⟨2, 4⟩), (Sea, ⟨6, 6⟩)]
      ⟨5, 3⟩ ⟨2, 4⟩ ⟨6, 6⟩ rfl (by decide) (by decide) (by decide)).1,
   (C7_majority_scoring splitBattle [(Air, ⟨5, 3⟩), (Land, ⟨2, 4⟩), (Sea, ⟨6, 6⟩)]
      ⟨5, 3⟩ ⟨2, 4⟩ ⟨6, 6⟩ rfl (by decide) (by decide) (by decide)).2.2.2.2.2.2
      rfl rfl rfl (by decide) (by decide)⟩

/-- The loop behind `allScored` accepts exactly the maps in which every
listed theater has an entry with a non-zero total. -/
theorem allScoredLoop_iff (ts : List (TheaterType × TheaterScore)) (theaters : List TheaterType) :
    allScoredLoop ts theaters = true ↔
      ∀ t ∈ theaters, ∃ e, lookupKey ts t = some e ∧
        (e.Player1Total ≠ 0 ∨ e.Player2Total ≠ 0) := by
  induction theaters with
  | nil => simp [allScoredLoop]
  | cons t rest ih =>
    unfold allScoredLoop
    cases hl : lookupKey ts t with
    | none => simp [hl]
    | some e =>
      simp only [List.mem_cons, forall_eq_or_imp, hl, Option.some.injEq, exists_eq_left']
      by_cases hz : e.Player1Total = 0 ∧ e.Player2Total = 0
      · rw [if_pos hz]
        simp [hz.1, hz.2]
      · rw [if_neg hz, ih]
        have : e.Player1Total ≠ 0 ∨ e.Player2Total ≠ 0 := by
          by_contra hc
          push_neg at hc
          exact hz hc
        simp [this]

/-- Where the loop behind `allScored` accepts, `countWins` finds every entry
it reads. -/
theorem countWins_of_allScored (ts : List (TheaterType × TheaterScore))
    (theaters : List TheaterType) (wins : Int × Int)
    (h : allScoredLoop ts theaters = true) :
    ∃ w, countWins ts theaters wins = some w := by
  induction theaters generalizing wins with
  | nil => exact ⟨wins, rfl⟩
  | cons t rest ih =>
    unfold allScoredLoop at h
    unfold countWins
    cases hl : lookupKey ts t with
    | none => simp [hl] at h
    | some e =>
      simp only [hl] at h ⊢
      have hrest : allScoredLoop ts rest = true := by
        by_cases hz : e.Player1Total = 0 ∧ e.Player2Total = 0
        · rw [if_pos hz] at h
          exact absurd h (by decide)
        · rw [if_neg hz] at h
          exact h
      split_ifs
      · exact ih _ hrest
      · exact ih _ hrest
      · exact ih _ hrest

/-- `calculateBattleWinner` never touches the recorded totals. -/
theorem calculateBattleWinner_theaterScores (g : GameState) :
    (calculateBattleWinner g).game.TheaterScores = g.TheaterScores := by
  unfold calculateBattleWinner
  split
  · rfl
  · simp only [checkGameOver, awardMajority]
    split_ifs <;> rfl

/-- C8: the completeness check of `UpdateTheaterScores`.  In `Scoring` without
a withdrawal the call succeeds and stores the map `ts` obtained by recording
the submission.  If every one of Air, Land, Sea has an entry in `ts` with a
non-zero total, the result is that of `calculateBattleWinner` on the record
holding `ts`; if some theater has no entry in `ts` or the entry (0,0), the
winner is not resolved: the result is the record holding `ts`, with both
scores and the phase as before the call. -/
theorem C8_scoring_completeness (g : GameState) (playerID : String)
    (scores : List (TheaterType × Int)) (hphase : g.Phase = .PhaseScoring)
    (hw : g.WithdrewPlayerID = "") :
    ∃ ts, ts = scores.foldl (recordScore (decide (playerID = g.Player1.ID)))
        (g.TheaterScores.getD []) ∧
      (UpdateTheaterScores g playerID scores).out = .ok ∧
      (UpdateTheaterScores g playerID scores).game.TheaterScores = some ts ∧
      ((∀ t ∈ [Air, Land, Sea], ∃ e, lookupKey ts t = some e ∧
          (e.Player1Total ≠ 0 ∨ e.Player2Total ≠ 0)) →
        UpdateTheaterScores g playerID scores
          = calculateBattleWinner { g with TheaterScores := some ts }) ∧
      ((∃ t ∈ [Air, Land, Sea], lookupKey ts t = none ∨ lookupKey ts t = some ⟨0, 0⟩) →
        UpdateTheaterScores g playerID scores = ⟨{ g with TheaterScores := some ts }, .ok⟩ ∧
        (UpdateTheaterScores g playerID scores).game.Player1.Score = g.Player1.Score ∧
        (UpdateTheaterScores g playerID scores).game.Player2.Score = g.Player2.Score ∧
        (UpdateTheaterScores g playerID scores).game.Phase = g.Phase) := by
  refine ⟨_, rfl, ?_⟩
  have hu := UpdateTheaterScores_scoring g playerID scores hphase hw
  cases hall : allScoredLoop (scores.foldl (recordScore (playerID = g.Player1.ID))
      (g.TheaterScores.getD [])) [Air, Land, Sea] with
  | true =>
    have hiff := (allScoredLoop_iff _ _).1 hall
    obtain ⟨w, hcw⟩ := countWins_of_allScored _ _ (0, 0) hall
    rw [hu.1 hall]
    refine ⟨?_, ?_, ?_, ?_⟩
    · unfold calculateBattleWinner
      simp only [Option.getD_some]
      rw [hcw]
    · rw [calculateBattleWinner_theaterScores]
    · intro _
      rfl
    · rintro ⟨t, ht, hbad⟩
      exfalso
      obtain ⟨e, he, hne⟩ := hiff t ht
      rcases hbad with hb | hb
      · rw [hb] at he
        exact Option.noConfusion he
      · rw [hb] at he
        cases he
        simp at hne
  | false =>
    rw [hu.2 hall]
    refine ⟨rfl, rfl, ?_, ?_⟩
    · intro hcomplete
      have := (allScoredLoop_iff _ _).2 hcomplete
      rw [hall] at this
      exact absurd this (by decide)
    · intro _
      exact ⟨rfl, rfl, rfl, rfl⟩

/-- C8, witness: `p1` has submitted Air 5, Land 2, Sea 0 and `p2` submits
Air 3, Land 4, Sea 0: Sea stands at (0,0), the call succeeds and the battle is
not resolved. -/
theorem C8_scoring_completeness_witness :
    (UpdateTheaterScores halfScored "p2" [(Air, 3), (Land, 4), (Sea, 0)]).out = .ok ∧
    (UpdateTheaterScores halfScored "p2" [(Air, 3), (Land, 4), (Sea, 0)]).game.Player2.Score
      = halfScored.Player2.Score :=
  (C8_scoring_completeness halfScored "p2" [(Air, 3), (Land, 4), (Sea, 0)]
    (by decide) (by decide)).elim
    (fun _ h => ⟨h.2.1, (h.2.2.2.2 (h.1 ▸ ⟨Sea, by decide, Or.inr (by decide)⟩)).2.2.1⟩)

/-- The check at the end of `PlayCard` and `DestroyCard` keeps the hands; with
both hands empty it sets `Scoring` and an empty map of totals, and otherwise it
changes nothing. -/
theorem checkBattleEnd_effect (g : GameState) :
    (checkBattleEnd g).Player1.Hand = g.Player1.Hand ∧
    (checkBattleEnd g).Player2.Hand = g.Player2.Hand ∧
    (g.Player1.Hand.len = 0 ∧ g.Player2.Hand.len = 0 →
      (checkBattleEnd g).Phase = .PhaseScoring ∧ (checkBattleEnd g).TheaterScores = some []) ∧
    (¬ (g.Player1.Hand.len = 0 ∧ g.Player2.Hand.len = 0) → checkBattleEnd g = g) := by
  unfold checkBattleEnd
  split_ifs with h
  · exact ⟨rfl, rfl, fun _ => ⟨rfl, rfl⟩, fun hn => absurd h hn⟩
  · exact ⟨rfl, rfl, fun hh => absurd hh h, fun _ => rfl⟩

/-- Writing the acting hand back changes neither phase nor recorded totals. -/
theorem setActingHand_frame (g : GameState) (playerID : String) (r : List Card × CardSlice) :
    (setActingHand g playerID r).Phase = g.Phase ∧
    (setActingHand g playerID r).TheaterScores = g.TheaterScores ∧
    (setActingHand g playerID r).Theaters = g.Theaters ∧
    (setActingHand g playerID r).Trash = g.Trash ∧
    (setActingHand g playerID r).CurrentPlayerID = g.CurrentPlayerID ∧
    (setActingHand g playerID r).Deck = g.Deck ∧
    (setActingHand g playerID r).Player1.Score = g.Player1.Score ∧
    (setActingHand g playerID r).Player2.Score = g.Player2.Score := by
  unfold setActingHand
  split_ifs <;> exact ⟨rfl, rfl, rfl, rfl, rfl, rfl, rfl, rfl⟩

/-- A successful `PlayCard` ends with the battle-end check applied to a record
that is still in `Playing` and holds the totals of before. -/
theorem PlayCard_ok_shape (g : GameState) (playerID : String) (cardID : Int)
    (theater : TheaterType) (faceUp : Bool)
    (hok : (PlayCard g playerID cardID theater faceUp).out = .ok) :
    ∃ g2, (PlayCard g playerID cardID theater faceUp).game = checkBattleEnd g2 ∧
      g2.Phase = .PhasePlaying ∧ g2.TheaterScores = g.TheaterScores := by
  unfold PlayCard at hok ⊢
  by_cases hp : g.Phase = .PhasePlaying
  · by_cases hc : g.CurrentPlayerID = playerID
    · simp only [hp, hc, ne_eq, not_true_eq_false, if_false] at hok ⊢
      split at hok
      · simp at hok
      · rename_i cardIndex card hfind
        have hf := setActingHand_frame g playerID
          ((actingHand g playerID).removeAt g.Dealt cardIndex)
        split at hok
        · simp at hok
        · rename_i theaterObj hlook
          refine ⟨_, rfl, ?_, ?_⟩
          · exact hf.1.trans hp
          · exact hf.2.1
    · simp [hp, hc] at hok
  · simp [hp] at hok

/-- A successful `DestroyCard` ends with the battle-end check applied to a
record that is still in `Playing` and holds the totals of before. -/
theorem DestroyCard_ok_shape (g : GameState) (playerID : String) (cardID : Int)
    (hok : (DestroyCard g playerID cardID).out = .ok) :
    ∃ g2, (DestroyCard g playerID cardID).game = checkBattleEnd g2 ∧
      g2.Phase = .PhasePlaying ∧ g2.TheaterScores = g.TheaterScores := by
  unfold DestroyCard at hok ⊢
  by_cases hp : g.Phase = .PhasePlaying
  · by_cases hc : g.CurrentPlayerID = playerID
    · simp only [hp, hc, ne_eq, not_true_eq_false, if_false] at hok ⊢
      split at hok
      · simp at hok
      · rename_i index destroyedCard hfind
        have hf := setActingHand_frame g playerID
          ((actingHand g playerID).removeAt g.Dealt index)
        refine ⟨_, rfl, ?_, ?_⟩
        · exact hf.1.trans hp
        · exact hf.2.1
    · simp [hp, hc] at hok
  · simp [hp] at hok

/-- A successful `PlayCard` or `DestroyCard` was made in `Playing` by the
current player. -/
theorem ok_requires_turn (g : GameState) (playerID : String) (cardID : Int)
    (theater : TheaterType) (faceUp : Bool) :
    ((PlayCard g playerID cardID theater faceUp).out = .ok →
      g.Phase = .PhasePlaying ∧ g.CurrentPlayerID = playerID) ∧
    ((DestroyCard g playerID cardID).out = .ok →
      g.Phase = .PhasePlaying ∧ g.CurrentPlayerID = playerID) := by
  constructor
  · intro h
    by_cases hp : g.Phase = .PhasePlaying
    · by_cases hc : g.CurrentPlayerID = playerID
      · exact ⟨hp, hc⟩
      · simp [PlayCard, hp, hc] at h
    · simp [PlayCard, hp] at h
  · intro h
    by_cases hp : g.Phase = .PhasePlaying
    · by_cases hc : g.CurrentPlayerID = playerID
      · exact ⟨hp, hc⟩
      · simp [DestroyCard, hp, hc] at h
    · simp [DestroyCard, hp] at h

/-- C9: the battle completion trigger.  After a successful `PlayCard` or
`DestroyCard`, if both hands are empty the phase is `Scoring` and
`TheaterScores` is the empty map; otherwise the phase is still `Playing` and
`TheaterScores` is what it was.  Once the match is in `Scoring` both calls
fail and leave the record alone, so they cannot trigger the transition again
in the same battle. -/
theorem C9_battle_completion_trigger (g : GameState) (playerID : String) (cardID : Int)
    (theater : TheaterType) (faceUp : Bool) :
    (∀ r : Result,
      (r = PlayCard g playerID cardID theater faceUp ∨ r = DestroyCard g playerID cardID) →
      r.out = .ok →
      g.Phase = .PhasePlaying ∧
      (r.game.Player1.Hand.len = 0 ∧ r.game.Player2.Hand.len = 0 →
        r.game.Phase = .PhaseScoring ∧ r.game.TheaterScores = some []) ∧
      (¬ (r.game.Player1.Hand.len = 0 ∧ r.game.Player2.Hand.len = 0) →
        r.game.Phase = .PhasePlaying ∧ r.game.TheaterScores = g.TheaterScores)) ∧
    (g.Phase = .PhaseScoring →
      PlayCard g playerID cardID theater faceUp = ⟨g, .err "game is not in playing phase"⟩ ∧
      DestroyCard g playerID cardID = ⟨g, .err "game is not in playing phase"⟩) := by
  have hshape : ∀ r : Result, r.out = .ok →
      (∃ g2, r.game = checkBattleEnd g2 ∧ g2.Phase = .PhasePlaying ∧
        g2.TheaterScores = g.TheaterScores) →
      (r.game.Player1.Hand.len = 0 ∧ r.game.Player2.Hand.len = 0 →
        r.game.Phase = .PhaseScoring ∧ r.game.TheaterScores = some []) ∧
      (¬ (r.game.Player1.Hand.len = 0 ∧ r.game.Player2.Hand.len = 0) →
        r.game.Phase = .PhasePlaying ∧ r.game.TheaterScores = g.TheaterScores) := by
    rintro r _ ⟨g2, hg, hph, hts⟩
    have he := checkBattleEnd_effect g2
    rw [hg, he.1, he.2.1]
    constructor
    · intro h
      exact he.2.2.1 h
    · intro h
      rw [he.2.2.2 h]
      exact ⟨hph, hts⟩
  refine ⟨?_, ?_⟩
  · intro r hcall hok
    rcases hcall with rfl | rfl
    · exact ⟨((ok_requires_turn g playerID cardID theater faceUp).1 hok).1,
        hshape _ hok (PlayCard_ok_shape g playerID cardID theater faceUp hok)⟩
    · exact ⟨((ok_requires_turn g playerID cardID theater faceUp).2 hok).1,
        hshape _ hok (DestroyCard_ok_shape g playerID cardID hok)⟩
  · intro h
    have hne : g.Phase ≠ .PhasePlaying := by
      rw [h]
      decide
    simp [PlayCard, DestroyCard, hne]

/-- C9, witness: `p1` plays the last card left in either hand; the call
succeeds and the match is in `Scoring` with an empty map of totals. -/
theorem C9_battle_completion_trigger_witness :
    (PlayCard lastCard "p1" 1 Air true).out = .ok ∧
    (PlayCard lastCard "p1" 1 Air true).game.Phase = .PhaseScoring ∧
    (PlayCard lastCard "p1" 1 Air true).game.TheaterScores = some [] :=
  ⟨by decide,
   ((C9_battle_completion_trigger lastCard "p1" 1 Air true).1
      (PlayCard lastCard "p1" 1 Air true) (Or.inl rfl) (by decide)).2.1
      ⟨by decide, by decide⟩⟩

/-- C10, on the code: a successful `PlayCard` that changes the other player's
hand.  After `p1` has drawn twice in the fresh match, `p1` is to move in
`Playing` and holds card 1; `p1` plays it to Air.  The call succeeds, `p1`'s
hand loses card 1 and Air receives it, but the removal shifts the shared
array under `p2`'s hand as well: `p2`'s hand turns from 13, 14, 9, 10, 11, 12
into 14, 14, 9, 10, 11, 12. -/
theorem C10_play_changes_other_hand :
    afterTwoDraws.Phase = .PhasePlaying ∧
    afterTwoDraws.CurrentPlayerID = "p1" ∧
    cardIDs (afterTwoDraws.Player1.Hand.toList afterTwoDraws.Dealt)
      = [1, 2, 3, 4, 5, 6, 13, 14] ∧
    cardIDs (afterTwoDraws.Player2.Hand.toList afterTwoDraws.Dealt)
      = [13, 14, 9, 10, 11, 12] ∧
    (PlayCard afterTwoDraws "p1" 1 Air true).out = .ok ∧
    cardIDs ((PlayCard afterTwoDraws "p1" 1 Air true).game.Player1.Hand.toList
      (PlayCard afterTwoDraws "p1" 1 Air true).game.Dealt) = [2, 3, 4, 5, 6, 13, 14] ∧
    cardIDs (theaterCards (PlayCard afterTwoDraws "p1" 1 Air true).game Air) = [1] ∧
    cardIDs ((PlayCard afterTwoDraws "p1" 1 Air true).game.Player2.Hand.toList
      (PlayCard afterTwoDraws "p1" 1 Air true).game.Dealt) = [14, 14, 9, 10, 11, 12] := by
  decide

/-- No element with the id: the backward search finds nothing. -/
theorem lastWithID_none (cs : List PlayedCard) (cardID : Int)
    (h : ∀ (j : Nat) (c : PlayedCard), cs[j]? = some c → c.Card.ID ≠ cardID) : lastWithID cs cardID = none := by
  induction cs with
  | nil => rfl
  | cons c rest ih =>
    unfold lastWithID
    have hrest : lastWithID rest cardID = none :=
      ih (fun j d hd => h (j + 1) d (by rw [List.getElem?_cons_succ]; exact hd))
    rw [hrest]
    have hc : c.Card.ID ≠ cardID := h 0 c (by simp)
    simp [hc]

/-- The backward search returns the last position holding the id. -/
theorem lastWithID_last (cs : List PlayedCard) (cardID : Int) (i : Nat) (t : PlayedCard)
    (ht : cs[i]? = some t) (hid : t.Card.ID = cardID)
    (hlast : ∀ (j : Nat) (c : PlayedCard), i < j → cs[j]? = some c → c.Card.ID ≠ cardID) :
    lastWithID cs cardID = some (i, t) := by
  induction cs generalizing i with
  | nil => simp at ht
  | cons c rest ih =>
    unfold lastWithID
    cases i with
    | zero =>
      have hrest : lastWithID rest cardID = none :=
        lastWithID_none rest cardID
          (fun j d hd => hlast (j + 1) d (Nat.succ_pos j)
            (by rw [List.getElem?_cons_succ]; exact hd))
      rw [hrest]
      simp at ht
      subst ht
      simp [hid]
    | succ k =>
      have hk : rest[k]? = some t := by simpa using ht
      have := ih k hk (fun j d hj hd => hlast (j + 1) d (by omega)
        (by rw [List.getElem?_cons_succ]; exact hd))
      rw [this]

/-- The stack check of `resolveTarget`, as a statement on positions. -/
theorem any_after_iff (cs : List PlayedCard) (i : Nat) (owner : String) :
    (cs.drop (i + 1)).any (fun c => decide (c.PlayerID = owner)) = true ↔
      ∃ (j : Nat) (c : PlayedCard), i < j ∧ cs[j]? = some c ∧ c.PlayerID = owner := by
  rw [List.any_eq_true]
  constructor
  · rintro ⟨c, hmem, hc⟩
    obtain ⟨k, hk⟩ := List.mem_iff_getElem?.1 hmem
    rw [List.getElem?_drop] at hk
    exact ⟨i + 1 + k, c, by omega, hk, by simpa using hc⟩
  · rintro ⟨j, c, hj, hc, ho⟩
    refine ⟨c, ?_, by simpa using ho⟩
    apply List.mem_iff_getElem?.2
    refine ⟨j - (i + 1), ?_⟩
    rw [List.getElem?_drop]
    have : i + 1 + (j - (i + 1)) = j := by omega
    rw [this]
    exact hc

/-- `ManipulateCard` with a target that cannot be resolved returns the error of
the resolution and the record as it was. -/
theorem ManipulateCard_unresolved (g : GameState) (playerID : String) (theater : TheaterType)
    (cardID : Int) (action : String) (th : Theater) (msg : String)
    (hphase : g.Phase = .PhasePlaying) (hturn : g.CurrentPlayerID = playerID)
    (hth : lookupKey g.Theaters theater = some th) (hne : th.Cards ≠ [])
    (hr : resolveTarget th.Cards cardID = .error msg) :
    ManipulateCard g playerID theater cardID action = ⟨g, .err msg⟩ := by
  simp [ManipulateCard, hphase, hturn, hth, hne, hr]

/-- `ManipulateCard` with the target resolved to position `i`, holding `t`:
the four branches of the `switch`. -/
theorem ManipulateCard_resolved (g : GameState) (playerID : String) (theater : TheaterType)
    (cardID : Int) (action : String) (th : Theater) (i : Nat) (t : PlayedCard)
    (hphase : g.Phase = .PhasePlaying) (hturn : g.CurrentPlayerID = playerID)
    (hth : lookupKey g.Theaters theater = some th) (hne : th.Cards ≠ [])
    (hr : resolveTarget th.Cards cardID = .ok i) (ht : th.Cards[i]? = some t) :
    (action = "flip" → ManipulateCard g playerID theater cardID action =
      ⟨{ g with Theaters := (storeKey g.Theaters theater
          ⟨th.Kind, th.Cards.set i ⟨t.Card, !t.FaceUp, t.PlayerID⟩⟩) }, .ok⟩) ∧
    (action = "destroy" → ManipulateCard g playerID theater cardID action =
      ⟨{ g with Theaters := storeKey g.Theaters theater ⟨th.Kind, th.Cards.eraseIdx i⟩,
                Trash := g.Trash ++ [t.Card] }, .ok⟩) ∧
    (action = "return" → (ManipulateCard g playerID theater cardID action).out ≠
      .err "card is not the top of that player's stack") ∧
    (action ≠ "flip" → action ≠ "destroy" → action ≠ "return" →
      ManipulateCard g playerID theater cardID action = ⟨g, .err "invalid action"⟩) := by
  refine ⟨?_, ?_, ?_, ?_⟩
  · intro ha
    subst ha
    simp [ManipulateCard, hphase, hturn, hth, hne, hr, ht]
  · intro ha
    subst ha
    simp [ManipulateCard, hphase, hturn, hth, hne, hr, ht]
  · intro ha
    subst ha
    simp [ManipulateCard, hphase, hturn, hth, hne, hr, ht]
    split
    · simp
    · split_ifs <;> simp
  · intro h1 h2 h3
    simp [ManipulateCard, hphase, hturn, hth, hne, hr, ht, h1, h2, h3]

/-- C11: target resolution of `ManipulateCard`, in `Playing`, called by the
current player, on a theater holding `th.Cards`.  An empty theater gives the
error "no cards in this theater".  With `cardID = 0` the target is the last
position, whoever owns the card there.  With `cardID ≠ 0`, if `i` is the last
position holding that id (with played card `t`), the call fails with "card is
not the top of that player's stack" exactly if a later position holds a card
with the `PlayerID` of `t`; otherwise the target is position `i`, so a target
followed by cards of the other player only is accepted. -/
theorem C11_target_resolution (g : GameState) (playerID : String) (theater : TheaterType)
    (cardID : Int) (action : String) (th : Theater)
    (hphase : g.Phase = .PhasePlaying) (hturn : playerID = g.CurrentPlayerID)
    (hth : lookupKey g.Theaters theater = some th) :
    (th.Cards = [] → ManipulateCard g playerID theater cardID action
      = ⟨g, .err "no cards in this theater"⟩) ∧
    (th.Cards ≠ [] → cardID = 0 →
      resolveTarget th.Cards cardID = .ok (th.Cards.length - 1) ∧
      th.Cards[th.Cards.length - 1]? = th.Cards.getLast?) ∧
    (∀ (i : Nat) (t : PlayedCard), cardID ≠ 0 → th.Cards[i]? = some t → t.Card.ID = cardID →
      (∀ (j : Nat) (c : PlayedCard), i < j → th.Cards[j]? = some c → c.Card.ID ≠ cardID) →
      ((∃ (j : Nat) (c : PlayedCard), i < j ∧ th.Cards[j]? = some c ∧ c.PlayerID = t.PlayerID) ↔
        ManipulateCard g playerID theater cardID action
          = ⟨g, .err "card is not the top of that player's stack"⟩) ∧
      ((¬ ∃ (j : Nat) (c : PlayedCard), i < j ∧ th.Cards[j]? = some c ∧ c.PlayerID = t.PlayerID) →
        resolveTarget th.Cards cardID = .ok i)) := by
  refine ⟨?_, ?_, ?_⟩
  · intro he
    simp [ManipulateCard, hphase, hturn, hth, he]
  · intro _ h0
    constructor
    · simp [resolveTarget, h0]
    · rw [List.getLast?_eq_getElem?]
  · intro i t hid ht htid hlast
    have hne : th.Cards ≠ [] := by
      intro he
      rw [he] at ht
      simp at ht
    have hfind := lastWithID_last th.Cards cardID i t ht htid hlast
    have hany := any_after_iff th.Cards i t.PlayerID
    by_cases hex : ∃ (j : Nat) (c : PlayedCard), i < j ∧ th.Cards[j]? = some c ∧
        c.PlayerID = t.PlayerID
    · have hr : resolveTarget th.Cards cardID
          = .error "card is not the top of that player's stack" := by
        unfold resolveTarget
        rw [if_pos hid, hfind]
        simp only
        rw [if_pos (hany.2 hex)]
      refine ⟨⟨fun _ => ?_, fun _ => hex⟩, fun hn => absurd hex hn⟩
      exact ManipulateCard_unresolved g playerID theater cardID action th _ hphase
        hturn.symm hth hne hr
    · have hr : resolveTarget th.Cards cardID = .ok i := by
        unfold resolveTarget
        rw [if_pos hid, hfind]
        simp only
        rw [if_neg (fun h => hex (hany.1 h))]
      refine ⟨⟨fun h => absurd h hex, fun hcall => ?_⟩, fun _ => hr⟩
      exfalso
      have hres := ManipulateCard_resolved g playerID theater cardID action th i t hphase
        hturn.symm hth hne hr ht
      by_cases h1 : action = "flip"
      · rw [hres.1 h1] at hcall
        simp at hcall
      · by_cases h2 : action = "destroy"
        · rw [hres.2.1 h2] at hcall
          simp at hcall
        · by_cases h3 : action = "return"
          · apply hres.2.2.1 h3
            rw [hcall]
          · rw [hres.2.2.2 h1 h2 h3] at hcall
            simp at hcall

/-- C11, witness: in Air, card 1 of `p1` lies under card 7 of `p2`; with
`cardID = 1` the last position holding that id is 0, no later card is `p1`'s,
and the target is position 0. -/
theorem C11_target_resolution_witness :
    resolveTarget airStack.Cards 1 = .ok 0 :=
  ((C11_target_resolution sharedAir "p2" Air 1 "return" airStack (by decide) (by decide)
      (by decide)).2.2 0 ⟨⟨1, Air, 1, "Air Drop"⟩, true, "p1"⟩ (by decide) (by decide)
      (by decide)
      (by
        intro j c hj hc
        rcases j with _ | _ | j
        · omega
        · simp [airStack] at hc
          subst hc
          decide
        · simp [airStack] at hc)).2
    (by
      rintro ⟨j, c, hj, hc, ho⟩
      rcases j with _ | _ | j
      · omega
      · simp [airStack] at hc
        subst hc
        simp at ho
      · simp [airStack] at hc)

/-- C12, on the code: a `return` that goes to the wrong hand.  In Air, card 1
played by `p1` lies under card 7 played by `p2`; `p2`, to move, returns card
1.  The target resolves to position 0 (only a card of the other player lies
above it) and the call succeeds; Air keeps card 7, but card 1 is appended to
the hand of `p2`, not to the hand of `p1` who played it, whose hand stays
2..6. -/
theorem C12_return_goes_to_other_player :
    sharedAir.Phase = .PhasePlaying ∧
    sharedAir.CurrentPlayerID = "p2" ∧
    lookupKey sharedAir.Theaters Air = some airStack ∧
    cardIDs (sharedAir.Player1.Hand.toList sharedAir.Dealt) = [2, 3, 4, 5, 6] ∧
    cardIDs (sharedAir.Player2.Hand.toList sharedAir.Dealt) = [8, 9, 10, 11, 12] ∧
    (resolveTarget airStack.Cards 1).toOption = some 0 ∧
    (ManipulateCard sharedAir "p2" Air 1 "return").out = .ok ∧
    cardIDs (theaterCards (ManipulateCard sharedAir "p2" Air 1 "return").game Air) = [7] ∧
    cardIDs ((ManipulateCard sharedAir "p2" Air 1 "return").game.Player1.Hand.toList
      (ManipulateCard sharedAir "p2" Air 1 "return").game.Dealt) = [2, 3, 4, 5, 6] ∧
    cardIDs ((ManipulateCard sharedAir "p2" Air 1 "return").game.Player2.Hand.toList
      (ManipulateCard sharedAir "p2" Air 1 "return").game.Dealt) = [8, 9, 10, 11, 12, 1] := by
  decide

/-- Reading a key just written gives the written value. -/
theorem lookupKey_storeKey_same {α : Type} (m : List (String × α)) (k : String) (v : α) :
    lookupKey (storeKey m k v) k = some v := by
  induction m with
  | nil => simp [storeKey, lookupKey]
  | cons p rest ih =>
    obtain ⟨k0, x⟩ := p
    unfold storeKey
    by_cases h : k0 = k
    · rw [if_pos h]
      simp [lookupKey]
    · rw [if_neg h]
      unfold lookupKey
      rw [if_neg h]
      exact ih

/-- Writing a key leaves every other key as it was. -/
theorem lookupKey_storeKey_other {α : Type} (m : List (String × α)) (k k2 : String) (v : α)
    (hne : k2 ≠ k) : lookupKey (storeKey m k v) k2 = lookupKey m k2 := by
  induction m with
  | nil =>
    simp only [storeKey, lookupKey]
    rw [if_neg (fun h => hne h.symm)]
  | cons p rest ih =>
    obtain ⟨k0, x⟩ := p
    unfold storeKey
    by_cases h : k0 = k
    · rw [if_pos h]
      unfold lookupKey
      rw [if_neg (fun e => hne e.symm), if_neg (fun e => hne (e.symm.trans h))]
    · rw [if_neg h]
      unfold lookupKey
      by_cases h2 : k0 = k2
      · rw [if_pos h2, if_pos h2]
      · rw [if_neg h2, if_neg h2]
        exact ih

/-- A second write to the same key replaces the first. -/
theorem storeKey_storeKey {α : Type} (m : List (String × α)) (k : String) (v w : α) :
    storeKey (storeKey m k v) k w = storeKey m k w := by
  induction m with
  | nil => simp [storeKey]
  | cons p rest ih =>
    obtain ⟨k0, x⟩ := p
    by_cases h : k0 = k
    · simp [storeKey, h]
    · simp [storeKey, h, ih]

/-- Writing back the value a key holds changes nothing. -/
theorem storeKey_of_lookupKey {α : Type} (m : List (String × α)) (k : String) (v : α)
    (h : lookupKey m k = some v) : storeKey m k v = m := by
  induction m with
  | nil => simp [lookupKey] at h
  | cons p rest ih =>
    obtain ⟨k0, x⟩ := p
    unfold lookupKey at h
    unfold storeKey
    by_cases hk : k0 = k
    · rw [if_pos hk] at h
      rw [if_pos hk]
      cases h
      rw [hk]
    · rw [if_neg hk] at h
      rw [if_neg hk, ih h]

/-- The backward search looks at card ids only: on two sequences with the
same ids and owners it stops at the same position, on cards of one owner. -/
theorem lastWithID_congr (cs ds : List PlayedCard) (cardID : Int)
    (h : cs.map (fun c => (c.Card.ID, c.PlayerID)) = ds.map (fun c => (c.Card.ID, c.PlayerID))) :
    (lastWithID cs cardID).map (fun p => (p.1, p.2.PlayerID))
      = (lastWithID ds cardID).map (fun p => (p.1, p.2.PlayerID)) := by
  induction cs generalizing ds with
  | nil =>
    cases ds with
    | nil => rfl
    | cons d ds => simp at h
  | cons c cs ih =>
    cases ds with
    | nil => simp at h
    | cons d ds =>
      simp only [List.map_cons, List.cons.injEq, Prod.mk.injEq] at h
      obtain ⟨⟨hid, hown⟩, hrest⟩ := h
      have hi := ih ds hrest
      unfold lastWithID
      cases hc : lastWithID cs cardID with
      | none =>
        cases hd : lastWithID ds cardID with
        | none =>
          simp only
          rw [hid]
          split_ifs
          · simp [hown]
          · rfl
        | some q =>
          rw [hc, hd] at hi
          simp at hi
      | some p =>
        cases hd : lastWithID ds cardID with
        | none =>
          rw [hc, hd] at hi
          simp at hi
        | some q =>
          rw [hc, hd] at hi
          simp only [Option.map_some', Option.some.injEq, Prod.mk.injEq] at hi ⊢
          exact ⟨by rw [hi.1], hi.2⟩

/-- The target resolution looks at card ids and owners only. -/
theorem resolveTarget_congr (cs ds : List PlayedCard) (cardID : Int)
    (h : cs.map (fun c => (c.Card.ID, c.PlayerID)) = ds.map (fun c => (c.Card.ID, c.PlayerID))) :
    resolveTarget cs cardID = resolveTarget ds cardID := by
  have hlen : cs.length = ds.length := by
    have := congrArg List.length h
    simpa using this
  have hany : ∀ (i : Nat) (owner : String),
      (cs.drop (i + 1)).any (fun c => decide (c.PlayerID = owner))
        = (ds.drop (i + 1)).any (fun c => decide (c.PlayerID = owner)) := by
    intro i owner
    have e1 : ∀ xs : List PlayedCard, xs.any (fun c => decide (c.PlayerID = owner))
        = (xs.map (fun c => (c.Card.ID, c.PlayerID))).any (fun k => decide (k.2 = owner)) := by
      intro xs
      induction xs with
      | nil => rfl
      | cons x xs ihx => simp [List.any_cons, ihx]
    rw [e1, e1, List.map_drop, List.map_drop, h]
  have hl := lastWithID_congr cs ds cardID h
  unfold resolveTarget
  by_cases h0 : cardID ≠ 0
  · rw [if_pos h0, if_pos h0]
    cases hc : lastWithID cs cardID with
    | none =>
      cases hd : lastWithID ds cardID with
      | none => rfl
      | some q =>
        rw [hc, hd] at hl
        simp at hl
    | some p =>
      cases hd : lastWithID ds cardID with
      | none =>
        rw [hc, hd] at hl
        simp at hl
      | some q =>
        rw [hc, hd] at hl
        simp only [Option.map_some', Option.some.injEq, Prod.mk.injEq] at hl
        obtain ⟨p1, p2⟩ := p
        obtain ⟨q1, q2⟩ := q
        simp only at hl ⊢
        rw [hany p1 p2.PlayerID, hl.1, hl.2]
  · rw [if_neg h0, if_neg h0, hlen]

/-- Turning a card over keeps the ids and owners of the sequence. -/
theorem map_key_set_flip (cs : List PlayedCard) (i : Nat) (t : PlayedCard)
    (ht : cs[i]? = some t) (face : Bool) :
    (cs.set i ⟨t.Card, face, t.PlayerID⟩).map (fun c => (c.Card.ID, c.PlayerID))
      = cs.map (fun c => (c.Card.ID, c.PlayerID)) := by
  induction cs generalizing i with
  | nil => rfl
  | cons c cs ih =>
    cases i with
    | zero =>
      simp at ht
      subst ht
      simp
    | succ k =>
      have hk : cs[k]? = some t := by simpa using ht
      simp [ih k hk]

/-- Writing to a position the element it holds changes nothing. -/
theorem set_own_element (cs : List PlayedCard) (i : Nat) (t : PlayedCard)
    (ht : cs[i]? = some t) : cs.set i t = cs := by
  induction cs generalizing i with
  | nil => rfl
  | cons c cs ih =>
    cases i with
    | zero =>
      simp at ht
      subst ht
      rfl
    | succ k =>
      have hk : cs[k]? = some t := by simpa using ht
      simp [ih k hk]

/-- C13: `flip` and `destroy` act on the resolved target only.  In `Playing`,
called by the current player on a theater holding `th.Cards`, with the target
resolved to position `i` holding `t`: `flip` succeeds and the theater holds
the same sequence with the card at `i` turned over (same card, same owner),
and a second `flip` gives back the record of before; `destroy` succeeds, the
theater holds the sequence without position `i` and `t`'s card is the new last
card of `Trash`; in both cases the other theaters, hands, dealt array, deck,
scores, phase and current player are as before (and `flip` leaves `Trash`
alone).  Any action other than `flip`, `destroy`, `return` fails with "invalid
action" and the record unchanged. -/
theorem C13_flip_destroy_target (g : GameState) (playerID : String) (theater : TheaterType)
    (cardID : Int) (th : Theater) (i : Nat) (t : PlayedCard)
    (hphase : g.Phase = .PhasePlaying) (hturn : playerID = g.CurrentPlayerID)
    (hth : lookupKey g.Theaters theater = some th)
    (hr : resolveTarget th.Cards cardID = .ok i) (ht : th.Cards[i]? = some t) :
    ((ManipulateCard g playerID theater cardID "flip").out = .ok ∧
      lookupKey (ManipulateCard g playerID theater cardID "flip").game.Theaters theater
        = some ⟨th.Kind, th.Cards.set i ⟨t.Card, !t.FaceUp, t.PlayerID⟩⟩ ∧
      (ManipulateCard g playerID theater cardID "flip").game.Trash = g.Trash ∧
      ManipulateCard (ManipulateCard g playerID theater cardID "flip").game playerID theater
        cardID "flip" = ⟨g, .ok⟩) ∧
    ((ManipulateCard g playerID theater cardID "destroy").out = .ok ∧
      lookupKey (ManipulateCard g playerID theater cardID "destroy").game.Theaters theater
        = some ⟨th.Kind, th.Cards.eraseIdx i⟩ ∧
      (ManipulateCard g playerID theater cardID "destroy").game.Trash = g.Trash ++ [t.Card]) ∧
    (∀ action, action = "flip" ∨ action = "destroy" →
      (∀ other, other ≠ theater →
        lookupKey (ManipulateCard g playerID theater cardID action).game.Theaters other
          = lookupKey g.Theaters other) ∧
      (ManipulateCard g playerID theater cardID action).game.Player1 = g.Player1 ∧
      (ManipulateCard g playerID theater cardID action).game.Player2 = g.Player2 ∧
      (ManipulateCard g playerID theater cardID action).game.Dealt = g.Dealt ∧
      (ManipulateCard g playerID theater cardID action).game.Deck = g.Deck ∧
      (ManipulateCard g playerID theater cardID action).game.Phase = g.Phase ∧
      (ManipulateCard g playerID theater cardID action).game.CurrentPlayerID
        = g.CurrentPlayerID) ∧
    (∀ action, action ≠ "flip" → action ≠ "destroy" → action ≠ "return" →
      ManipulateCard g playerID theater cardID action = ⟨g, .err "invalid action"⟩) := by
  have hne : th.Cards ≠ [] := by
    intro he
    rw [he] at ht
    simp at ht
  have hres := fun action => ManipulateCard_resolved g playerID theater cardID action th i t
    hphase hturn.symm hth hne hr ht
  have hflip := (hres "flip").1 rfl
  have hdestroy := (hres "destroy").2.1 rfl
  refine ⟨⟨?_, ?_, ?_, ?_⟩, ⟨?_, ?_, ?_⟩, ?_, ?_⟩
  · rw [hflip]
  · rw [hflip]
    exact lookupKey_storeKey_same _ _ _
  · rw [hflip]
  · rw [hflip]
    have hkeys := map_key_set_flip th.Cards i t ht (!t.FaceUp)
    have hr2 : resolveTarget (th.Cards.set i ⟨t.Card, !t.FaceUp, t.PlayerID⟩) cardID = .ok i := by
      rw [resolveTarget_congr _ _ cardID hkeys]
      exact hr
    have hlt : i < th.Cards.length := by
      rcases List.getElem?_eq_some_iff.1 ht with ⟨hlt, _⟩
      exact hlt
    have ht2 : (th.Cards.set i ⟨t.Card, !t.FaceUp, t.PlayerID⟩)[i]?
        = some ⟨t.Card, !t.FaceUp, t.PlayerID⟩ := by
      rw [List.getElem?_set_self hlt]
    have hne2 : th.Cards.set i ⟨t.Card, !t.FaceUp, t.PlayerID⟩ ≠ [] := by
      intro he
      rw [he] at ht2
      simp at ht2
    have h2 := (ManipulateCard_resolved
      { g with Theaters := (storeKey g.Theaters theater
          ⟨th.Kind, th.Cards.set i ⟨t.Card, !t.FaceUp, t.PlayerID⟩⟩) }
      playerID theater cardID "flip"
      ⟨th.Kind, th.Cards.set i ⟨t.Card, !t.FaceUp, t.PlayerID⟩⟩ i
      ⟨t.Card, !t.FaceUp, t.PlayerID⟩ hphase hturn.symm
      (lookupKey_storeKey_same _ _ _) hne2 hr2 ht2).1 rfl
    rw [h2]
    have hback : (th.Cards.set i ⟨t.Card, !t.FaceUp, t.PlayerID⟩).set i
        ⟨t.Card, !(!t.FaceUp), t.PlayerID⟩ = th.Cards := by
      rw [List.set_set, Bool.not_not]
      have : (⟨t.Card, t.FaceUp, t.PlayerID⟩ : PlayedCard) = t := rfl
      rw [this]
      exact set_own_element th.Cards i t ht
    simp only [hback]
    rw [storeKey_storeKey, storeKey_of_lookupKey g.Theaters theater ⟨th.Kind, th.Cards⟩ hth]
  · rw [hdestroy]
  · rw [hdestroy]
    exact lookupKey_storeKey_same _ _ _
  · rw [hdestroy]
  · intro action ha
    rcases ha with rfl | rfl
    · rw [hflip]
      exact ⟨fun other ho => lookupKey_storeKey_other _ _ _ _ ho, rfl, rfl, rfl, rfl, rfl, rfl⟩
    · rw [hdestroy]
      exact ⟨fun other ho => lookupKey_storeKey_other _ _ _ _ ho, rfl, rfl, rfl, rfl, rfl, rfl⟩
  · intro action h1 h2 h3
    exact (hres action).2.2.2 h1 h2 h3

/-- C13, witness: in Air (card 1 of `p1` under card 7 of `p2`) the target
without a card id is position 1; `flip` succeeds, a second `flip` gives back
the record, and `destroy` appends card 7 to the trash. -/
theorem C13_flip_destroy_target_witness :
    (ManipulateCard sharedAir "p2" Air 0 "flip").out = .ok ∧
    ManipulateCard (ManipulateCard sharedAir "p2" Air 0 "flip").game "p2" Air 0 "flip"
      = ⟨sharedAir, .ok⟩ ∧
    (ManipulateCard sharedAir "p2" Air 0 "destroy").game.Trash
      = sharedAir.Trash ++ [⟨7, Land, 1, "Ambush"⟩] :=
  ⟨(C13_flip_destroy_target sharedAir "p2" Air 0 airStack 1
      ⟨⟨7, Land, 1, "Ambush"⟩, true, "p2"⟩ (by decide) (by decide) (by decide) rfl
      (by decide)).1.1,
   (C13_flip_destroy_target sharedAir "p2" Air 0 airStack 1
      ⟨⟨7, Land, 1, "Ambush"⟩, true, "p2"⟩ (by decide) (by decide) (by decide) rfl
      (by decide)).1.2.2.2,
   (C13_flip_destroy_target sharedAir "p2" Air 0 airStack 1
      ⟨⟨7, Land, 1, "Ambush"⟩, true, "p2"⟩ (by decide) (by decide) (by decide) rfl
      (by decide)).2.1.2.2⟩

/-- C14, on the code: a `DrawCard` that changes the other hand.  Right after
`startNewGame`, in `Playing` with `p1` to move and a deck of 6, `DrawCard` by
`p1` succeeds, the deck loses its first card 13 and `p1`'s hand gains it, but
`p2`'s hand turns from 7, 8, 9, 10, 11, 12 into 13, 8, 9, 10, 11, 12. -/
theorem C14_draw_overwrites_other_hand :
    freshGame.Phase = .PhasePlaying ∧
    freshGame.CurrentPlayerID = "p1" ∧
    cardIDs (freshGame.Player1.Hand.toList freshGame.Dealt) = [1, 2, 3, 4, 5, 6] ∧
    cardIDs (freshGame.Player2.Hand.toList freshGame.Dealt) = [7, 8, 9, 10, 11, 12] ∧
    cardIDs (freshGame.Deck.toList freshGame.Dealt) = [13, 14, 15, 16, 17, 18] ∧
    (DrawCard freshGame "p1").out = .ok ∧
    cardIDs ((DrawCard freshGame "p1").game.Deck.toList (DrawCard freshGame "p1").game.Dealt)
      = [14, 15, 16, 17, 18] ∧
    cardIDs ((DrawCard freshGame "p1").game.Player1.Hand.toList
      (DrawCard freshGame "p1").game.Dealt) = [1, 2, 3, 4, 5, 6, 13] ∧
    cardIDs ((DrawCard freshGame "p1").game.Player2.Hand.toList
      (DrawCard freshGame "p1").game.Dealt) = [13, 8, 9, 10, 11, 12] := by
  decide

/-- C15, on the code: a `DestroyCard` that changes the other hand.  After `p1`
has drawn twice in the fresh match, `p1` destroys card 1 from the hand.  The
call succeeds, the hand loses card 1 and the trash receives it, but the
removal shifts the shared array under `p2`'s hand as well: it turns from
13, 14, 9, 10, 11, 12 into 14, 14, 9, 10, 11, 12. -/
theorem C15_destroy_changes_other_hand :
    afterTwoDraws.Phase = .PhasePlaying ∧
    afterTwoDraws.CurrentPlayerID = "p1" ∧
    cardIDs (afterTwoDraws.Player1.Hand.toList afterTwoDraws.Dealt)
      = [1, 2, 3, 4, 5, 6, 13, 14] ∧
    cardIDs (afterTwoDraws.Player2.Hand.toList afterTwoDraws.Dealt)
      = [13, 14, 9, 10, 11, 12] ∧
    (DestroyCard afterTwoDraws "p1" 1).out = .ok ∧
    cardIDs ((DestroyCard afterTwoDraws "p1" 1).game.Player1.Hand.toList
      (DestroyCard afterTwoDraws "p1" 1).game.Dealt) = [2, 3, 4, 5, 6, 13, 14] ∧
    cardIDs (DestroyCard afterTwoDraws "p1" 1).game.Trash = [1] ∧
    cardIDs ((DestroyCard afterTwoDraws "p1" 1).game.Player2.Hand.toList
      (DestroyCard afterTwoDraws "p1" 1).game.Dealt) = [14, 14, 9, 10, 11, 12] := by
  decide

/-- C16: the frame of `EndTurn`.  In `Playing`, with two distinct participant
ids, called by the current player, `EndTurn` succeeds and changes
`CurrentPlayerID` only; the new current player is a participant other than
the caller, `Player2` after `Player1` and `Player1` after `Player2`; and when
the caller is a participant, `EndTurn` by the new current player gives back
the record of before. -/
theorem C16_end_turn_frame (g : GameState) (playerID : String)
    (hphase : g.Phase = .PhasePlaying) (hdist : g.Player1.ID ≠ g.Player2.ID)
    (hturn : playerID = g.CurrentPlayerID) :
    EndTurn g playerID
      = ⟨{ g with CurrentPlayerID := (EndTurn g playerID).game.CurrentPlayerID }, .ok⟩ ∧
    (playerID = g.Player1.ID → (EndTurn g playerID).game.CurrentPlayerID = g.Player2.ID) ∧
    (playerID = g.Player2.ID → (EndTurn g playerID).game.CurrentPlayerID = g.Player1.ID) ∧
    ((EndTurn g playerID).game.CurrentPlayerID = g.Player1.ID ∨
      (EndTurn g playerID).game.CurrentPlayerID = g.Player2.ID) ∧
    (EndTurn g playerID).game.CurrentPlayerID ≠ playerID ∧
    (playerID = g.Player1.ID ∨ playerID = g.Player2.ID →
      EndTurn (EndTurn g playerID).game (EndTurn g playerID).game.CurrentPlayerID
        = ⟨g, .ok⟩) := by
  subst hturn
  by_cases h1 : g.CurrentPlayerID = g.Player1.ID
  · have hcall : EndTurn g g.CurrentPlayerID
        = ⟨{ g with CurrentPlayerID := g.Player2.ID }, .ok⟩ := by
      simp [EndTurn, hphase, h1]
    rw [hcall]
    refine ⟨rfl, fun _ => rfl, fun h => ?_, Or.inr rfl, ?_, fun _ => ?_⟩
    · exact absurd (h1.symm.trans h) hdist
    · intro h
      exact hdist (h1.symm.trans h.symm)
    · have hne : ¬ g.Player2.ID = g.Player1.ID := fun e => hdist e.symm
      simp only [EndTurn, hphase, hne, ne_eq, not_true_eq_false, if_false]
      rw [← h1, ← hphase]
  · have hcall : EndTurn g g.CurrentPlayerID
        = ⟨{ g with CurrentPlayerID := g.Player1.ID }, .ok⟩ := by
      simp [EndTurn, hphase, h1]
    rw [hcall]
    refine ⟨rfl, fun h => absurd h h1, fun _ => rfl, Or.inl rfl, ?_, fun h => ?_⟩
    · intro h
      exact h1 h.symm
    · rcases h with h | h
      · exact absurd h h1
      · simp only [EndTurn, hphase, ne_eq, not_true_eq_false, if_false, if_true]
        rw [← h, ← hphase]

/-- Three rotations bring a three-element order back. -/
theorem rotateTheaterOrder_three (a b c : TheaterType) :
    rotateTheaterOrder (rotateTheaterOrder (rotateTheaterOrder [a, b, c])) = [a, b, c] := by
  simp [rotateTheaterOrder]

/-- The rotation moves the last element of a non-empty order to the front. -/
theorem rotateTheaterOrder_snoc (front : List TheaterType) (last : TheaterType) :
    rotateTheaterOrder (front ++ [last]) = last :: front := by
  simp [rotateTheaterOrder]

/-- C17: `StartNextBattle`.  In `Scoring` the call succeeds and yields
`Playing`, the battle number plus one, `FirstPlayerID` switched to the other
participant, `CurrentPlayerID` equal to the new `FirstPlayerID`, the theater
order with its last element moved to the front (an order without a last
element, which no deal produces, becomes Sea, Air, Land), no withdrawal, no
totals, three empty theaters, an empty trash, and ids, names and scores as
before; three next battles in a row give back a three-element order.  In
`GameOver` it fails with "game is over", in `Playing` with "battle is not
finished", and the record stays as it was. -/
theorem C17_start_next_battle (g : GameState) (picks : List Nat) :
    (g.Phase = .PhaseScoring →
      (StartNextBattle g picks).out = .ok ∧
      (StartNextBattle g picks).game.Phase = .PhasePlaying ∧
      (StartNextBattle g picks).game.BattleNumber = g.BattleNumber + 1 ∧
      (g.FirstPlayerID = g.Player1.ID →
        (StartNextBattle g picks).game.FirstPlayerID = g.Player2.ID) ∧
      (g.FirstPlayerID = g.Player2.ID →
        (StartNextBattle g picks).game.FirstPlayerID = g.Player1.ID) ∧
      (StartNextBattle g picks).game.CurrentPlayerID
        = (StartNextBattle g picks).game.FirstPlayerID ∧
      (∀ (front : List TheaterType) (last : TheaterType), g.TheaterOrder = front ++ [last] →
        (StartNextBattle g picks).game.TheaterOrder = last :: front) ∧
      (g.TheaterOrder = [] → (StartNextBattle g picks).game.TheaterOrder = [Sea, Air, Land]) ∧
      (StartNextBattle g picks).game.WithdrewPlayerID = "" ∧
      (StartNextBattle g picks).game.TheaterScores = none ∧
      (StartNextBattle g picks).game.Theaters
        = [(Air, ⟨Air, []⟩), (Land, ⟨Land, []⟩), (Sea, ⟨Sea, []⟩)] ∧
      (StartNextBattle g picks).game.Trash = [] ∧
      (StartNextBattle g picks).game.Player1.ID = g.Player1.ID ∧
      (StartNextBattle g picks).game.Player1.Name = g.Player1.Name ∧
      (StartNextBattle g picks).game.Player1.Score = g.Player1.Score ∧
      (StartNextBattle g picks).game.Player2.ID = g.Player2.ID ∧
      (StartNextBattle g picks).game.Player2.Name = g.Player2.Name ∧
      (StartNextBattle g picks).game.Player2.Score = g.Player2.Score) ∧
    (∀ (a b c : TheaterType) (picks2 picks3 : List Nat), g.TheaterOrder = [a, b, c] →
      (setupNextBattle (setupNextBattle (setupNextBattle g picks) picks2) picks3).TheaterOrder
        = [a, b, c]) ∧
    (g.Phase = .PhaseGameOver → StartNextBattle g picks = ⟨g, .err "game is over"⟩) ∧
    (g.Phase = .PhasePlaying → StartNextBattle g picks = ⟨g, .err "battle is not finished"⟩) := by
  refine ⟨?_, ?_, ?_, ?_⟩
  · intro hphase
    have hcall : StartNextBattle g picks = ⟨setupNextBattle g picks, .ok⟩ := by
      simp [StartNextBattle, hphase]
    rw [hcall]
    refine ⟨rfl, rfl, rfl, ?_, ?_, rfl, ?_, ?_, rfl, rfl, rfl, rfl, rfl, rfl, rfl, rfl, rfl, rfl⟩
    · intro h
      simp [setupNextBattle, h]
    · intro h
      by_cases h1 : g.FirstPlayerID = g.Player1.ID
      · simp only [setupNextBattle, h1, if_true]
        rw [← h, h1]
      · simp [setupNextBattle, h1]
    · intro front last h
      simp only [setupNextBattle, h]
      simp [rotateTheaterOrder]
    · intro h
      simp [setupNextBattle, h, rotateTheaterOrder, Air, Land, Sea]
  · intro a b c picks2 picks3 h
    simp [setupNextBattle, h, rotateTheaterOrder]
  · intro h
    simp [StartNextBattle, h]
  · intro h
    simp [StartNextBattle, h]

/-- C18: the rematch reset.  In `GameOver`, whatever the scores and the battle
number are, `StartNextGame` succeeds and yields both scores 0, battle number
1, the order Air, Land, Sea, `FirstPlayerID` switched to the other
participant, `CurrentPlayerID` equal to the new `FirstPlayerID`, `Playing`, no
withdrawal, no totals, three empty theaters, an empty trash, and ids and names
as before.  In any other phase it fails with "game is not over" and the record
stays as it was. -/
theorem C18_rematch_reset (g : GameState) (picks : List Nat) :
    (g.Phase = .PhaseGameOver →
      (StartNextGame g picks).out = .ok ∧
      (StartNextGame g picks).game.Player1.Score = 0 ∧
      (StartNextGame g picks).game.Player2.Score = 0 ∧
      (StartNextGame g picks).game.BattleNumber = 1 ∧
      (StartNextGame g picks).game.TheaterOrder = [Air, Land, Sea] ∧
      (g.FirstPlayerID = g.Player1.ID →
        (StartNextGame g picks).game.FirstPlayerID = g.Player2.ID) ∧
      (g.FirstPlayerID = g.Player2.ID →
        (StartNextGame g picks).game.FirstPlayerID = g.Player1.ID) ∧
      (StartNextGame g picks).game.CurrentPlayerID
        = (StartNextGame g picks).game.FirstPlayerID ∧
      (StartNextGame g picks).game.Phase = .PhasePlaying ∧
      (StartNextGame g picks).game.WithdrewPlayerID = "" ∧
      (StartNextGame g picks).game.TheaterScores = none ∧
      (StartNextGame g picks).game.Theaters
        = [(Air, ⟨Air, []⟩), (Land, ⟨Land, []⟩), (Sea, ⟨Sea, []⟩)] ∧
      (StartNextGame g picks).game.Trash = [] ∧
      (StartNextGame g picks).game.Player1.ID = g.Player1.ID ∧
      (StartNextGame g picks).game.Player1.Name = g.Player1.Name ∧
      (StartNextGame g picks).game.Player2.ID = g.Player2.ID ∧
      (StartNextGame g picks).game.Player2.Name = g.Player2.Name) ∧
    (g.Phase ≠ .PhaseGameOver → StartNextGame g picks = ⟨g, .err "game is not over"⟩) := by
  refine ⟨?_, ?_⟩
  · intro hphase
    simp only [StartNextGame, hphase, ne_eq, not_true_eq_false, if_false]
    refine ⟨by trivial, by trivial, by trivial, by trivial, by trivial, ?_, ?_, by trivial,
      by trivial, by trivial, by trivial, by trivial, by trivial, by trivial, by trivial,
      by trivial, by trivial⟩
    · intro h
      simp [h]
    · intro h
      by_cases h1 : g.FirstPlayerID = g.Player1.ID
      · simp only [h1, if_true]
        rw [← h, h1]
      · simp [h1]
  · intro h
    simp [StartNextGame, h]

/-- C16, witness: in the fresh match `p1` ends the turn, `p2` is to move, and
`EndTurn` by `p2` gives back the fresh match. -/
theorem C16_end_turn_frame_witness :
    (EndTurn freshGame "p1").game.CurrentPlayerID = "p2" ∧
    EndTurn (EndTurn freshGame "p1").game (EndTurn freshGame "p1").game.CurrentPlayerID
      = ⟨freshGame, .ok⟩ :=
  ⟨(C16_end_turn_frame freshGame "p1" (by decide) (by decide) (by decide)).2.1 (by decide),
   (C16_end_turn_frame freshGame "p1" (by decide) (by decide) (by decide)).2.2.2.2.2
     (Or.inl (by decide))⟩

/-- C17, witness: after `p1`'s withdrawal the next battle starts with the order
Sea, Air, Land; in a match that is over the call fails with "game is over",
in the fresh match with "battle is not finished". -/
theorem C17_start_next_battle_witness :
    (StartNextBattle withdrawn keepOrder).out = .ok ∧
    (StartNextBattle withdrawn keepOrder).game.TheaterOrder = [Sea, Air, Land] ∧
    StartNextBattle matchOver keepOrder = ⟨matchOver, .err "game is over"⟩ ∧
    StartNextBattle freshGame keepOrder = ⟨freshGame, .err "battle is not finished"⟩ :=
  ⟨((C17_start_next_battle withdrawn keepOrder).1 (by decide)).1,
   ((C17_start_next_battle withdrawn keepOrder).1 (by decide)).2.2.2.2.2.2.1 [Air, Land] Sea
     (by decide),
   (C17_start_next_battle matchOver keepOrder).2.2.1 (by decide),
   (C17_start_next_battle freshGame keepOrder).2.2.2 (by decide)⟩

/-- C18, witness: the match that ended with `p2` at 13 points restarts with
`p2` at 0; in the fresh match the call fails with "game is not over". -/
theorem C18_rematch_reset_witness :
    (StartNextGame matchOver keepOrder).out = .ok ∧
    (StartNextGame matchOver keepOrder).game.Player2.Score = 0 ∧
    StartNextGame freshGame keepOrder = ⟨freshGame, .err "game is not over"⟩ :=
  ⟨((C18_rematch_reset matchOver keepOrder).1 (by decide)).1,
   ((C18_rematch_reset matchOver keepOrder).1 (by decide)).2.2.1,
   (C18_rematch_reset freshGame keepOrder).2 (by decide)⟩

/-- Putting `x` where `b` stood and `b` in front gives the cards of `x :: t`. -/
theorem cons_set_perm (t : List Card) (k : Nat) (b x : Card) (h : t[k]? = some b) :
    (b :: t.set k x).Perm (x :: t) := by
  induction t generalizing k with
  | nil => simp at h
  | cons y t ih =>
    cases k with
    | zero =>
      simp at h
      subst h
      exact List.Perm.swap _ _ _
    | succ k =>
      have hk : t[k]? = some b := by simpa using h
      have h1 : (b :: y :: t.set k x).Perm (y :: b :: t.set k x) := List.Perm.swap _ _ _
      have h2 : (y :: b :: t.set k x).Perm (y :: x :: t) := (ih k hk).cons y
      have h3 : (y :: x :: t).Perm (x :: y :: t) := List.Perm.swap _ _ _
      exact (h1.trans h2).trans h3

/-- A swap of two places rearranges the cards and loses none. -/
theorem swapAt_perm (xs : List Card) (i j : Nat) : (swapAt xs i j).Perm xs := by
  induction xs generalizing i j with
  | nil => simp [swapAt]
  | cons x t ih =>
    cases i with
    | zero =>
      cases j with
      | zero => simp [swapAt]
      | succ j =>
        cases hb : t[j]? with
        | none => simp [swapAt, hb]
        | some b =>
          simp only [swapAt, List.getElem?_cons_zero, List.getElem?_cons_succ, hb,
            List.set_cons_zero, List.set_cons_succ]
          exact cons_set_perm t j b x hb
    | succ i =>
      cases j with
      | zero =>
        cases ha : t[i]? with
        | none => simp [swapAt, ha]
        | some a =>
          simp only [swapAt, List.getElem?_cons_zero, List.getElem?_cons_succ, ha,
            List.set_cons_zero, List.set_cons_succ]
          exact cons_set_perm t i a x ha
      | succ j =>
        have hstep : swapAt (x :: t) (i + 1) (j + 1) = x :: swapAt t i j := by
          simp only [swapAt, List.getElem?_cons_succ]
          cases t[i]? <;> cases t[j]? <;> simp
        rw [hstep]
        exact (ih i j).cons x

/-- The loop of the shuffle rearranges the cards and loses none. -/
theorem shuffleLoop_perm (n : Nat) (picks : List Nat) (xs : List Card) :
    (shuffleLoop n picks xs).Perm xs := by
  induction n generalizing picks xs with
  | zero => simp [shuffleLoop]
  | succ n ih =>
    unfold shuffleLoop
    exact (ih _ _).trans (swapAt_perm _ _ _)

/-- `shuffleDeck` returns a permutation of its input, for every outcome of the
random source. -/
theorem shuffleDeck_perm (picks : List Nat) (cards : List Card) :
    (shuffleDeck picks cards).Perm cards :=
  shuffleLoop_perm _ _ _

/-- The three windows of a deal on an 18-card array: its first 6 cards, its
next 6 and its last 6, which together are the array. -/
theorem deal_windows (deck : List Card) (hlen : deck.length = 18) :
    (dealHand1 deck).toList deck = deck.take 6 ∧
    (dealHand2 deck).toList deck = (deck.drop 6).take 6 ∧
    (dealDeck deck).toList deck = deck.drop 12 ∧
    (dealHand1 deck).len = 6 ∧ (dealHand2 deck).len = 6 ∧ (dealDeck deck).len = 6 ∧
    deck.take 6 ++ (deck.drop 6).take 6 ++ deck.drop 12 = deck := by
  refine ⟨?_, ?_, ?_, rfl, rfl, ?_, ?_⟩
  · simp [dealHand1, CardSlice.toList]
  · simp [dealHand2, CardSlice.toList]
  · simp only [dealDeck, CardSlice.toList]
    apply List.take_of_length_le
    simp [hlen]
  · simp [dealDeck, CardSlice.len, hlen]
  · have h1 : deck.drop 12 = (deck.drop 6).drop 6 := by
      rw [List.drop_drop]
    rw [h1, List.append_assoc, List.take_append_drop, List.take_append_drop]

/-- C19: shuffle and deal.  For every outcome of the random source
`shuffleDeck` returns a sequence of the length of its input that is a
permutation of it (the input, a value here, is copied and not written to).
Right after `startNewGame`, a successful `StartNextBattle` or a successful
`StartNextGame`, `Player1.Hand` is the first 6 cards of the shuffled
catalogue, `Player2.Hand` the next 6 and `Deck` the remaining 6, and the three
together are a permutation of `AllCards`, which has 18 cards with the ids
1..18, six in each theater. -/
theorem C19_shuffle_and_deal (picks : List Nat) :
    (∀ cards : List Card, (shuffleDeck picks cards).length = cards.length ∧
      (shuffleDeck picks cards).Perm cards) ∧
    (∀ g : GameState,
      ((∃ room gameID coin, g = startNewGame room gameID coin picks) ∨
        (∃ g0 : GameState, g0.Phase = .PhaseScoring ∧ g = (StartNextBattle g0 picks).game) ∨
        (∃ g0 : GameState, g0.Phase = .PhaseGameOver ∧ g = (StartNextGame g0 picks).game)) →
      g.Player1.Hand.toList g.Dealt = (shuffleDeck picks AllCards).take 6 ∧
      g.Player2.Hand.toList g.Dealt = ((shuffleDeck picks AllCards).drop 6).take 6 ∧
      g.Deck.toList g.Dealt = (shuffleDeck picks AllCards).drop 12 ∧
      g.Player1.Hand.len = 6 ∧ g.Player2.Hand.len = 6 ∧ g.Deck.len = 6 ∧
      (g.Player1.Hand.toList g.Dealt ++ g.Player2.Hand.toList g.Dealt
        ++ g.Deck.toList g.Dealt).Perm AllCards) ∧
    AllCards.length = 18 ∧
    cardIDs AllCards = [1, 2, 3, 4, 5, 6, 7, 8, 9, 10, 11, 12, 13, 14, 15, 16, 17, 18] ∧
    (AllCards.filter (fun c => c.Theater = Air)).length = 6 ∧
    (AllCards.filter (fun c => c.Theater = Land)).length = 6 ∧
    (AllCards.filter (fun c => c.Theater = Sea)).length = 6 := by
  have hperm := shuffleDeck_perm picks
  refine ⟨fun cards => ⟨(hperm cards).length_eq, hperm cards⟩, ?_, by decide, by decide,
    by decide, by decide, by decide⟩
  intro g hdeal
  have hlen : (shuffleDeck picks AllCards).length = 18 := (hperm AllCards).length_eq
  have hw := deal_windows (shuffleDeck picks AllCards) hlen
  have hfields : g.Dealt = shuffleDeck picks AllCards ∧
      g.Player1.Hand = dealHand1 (shuffleDeck picks AllCards) ∧
      g.Player2.Hand = dealHand2 (shuffleDeck picks AllCards) ∧
      g.Deck = dealDeck (shuffleDeck picks AllCards) := by
    rcases hdeal with ⟨room, gameID, coin, rfl⟩ | ⟨g0, hp, rfl⟩ | ⟨g0, hp, rfl⟩
    · simp [startNewGame]
    · simp [StartNextBattle, hp, setupNextBattle]
    · simp [StartNextGame, hp]
  obtain ⟨hd, h1, h2, h3⟩ := hfields
  rw [hd, h1, h2, h3, hw.1, hw.2.1, hw.2.2.1, hw.2.2.2.2.2.2]
  exact ⟨rfl, rfl, rfl, hw.2.2.2.1, hw.2.2.2.2.1, hw.2.2.2.2.2.1, hperm AllCards⟩

/-- C19, witness: the two hands and the deck of the fresh match are a
permutation of the catalogue. -/
theorem C19_shuffle_and_deal_witness :
    (freshGame.Player1.Hand.toList freshGame.Dealt ++ freshGame.Player2.Hand.toList freshGame.Dealt
      ++ freshGame.Deck.toList freshGame.Dealt).Perm AllCards :=
  ((C19_shuffle_and_deal keepOrder).2.1 freshGame
    (Or.inl ⟨demoRoom, "G", 0, rfl⟩)).2.2.2.2.2.2

/-- Writing the acting hand back leaves the scores alone. -/
theorem setActingHand_scores (g : GameState) (playerID : String) (r : List Card × CardSlice) :
    (setActingHand g playerID r).Player1.Score = g.Player1.Score ∧
    (setActingHand g playerID r).Player2.Score = g.Player2.Score := by
  unfold setActingHand
  split_ifs <;> exact ⟨rfl, rfl⟩

/-- The battle-end check leaves the scores alone. -/
theorem checkBattleEnd_scores (g : GameState) :
    (checkBattleEnd g).Player1.Score = g.Player1.Score ∧
    (checkBattleEnd g).Player2.Score = g.Player2.Score := by
  unfold checkBattleEnd
  split_ifs <;> exact ⟨rfl, rfl⟩

/-- `PlayCard` leaves the scores alone, however it ends. -/
theorem PlayCard_scores (g : GameState) (playerID : String) (cardID : Int)
    (theater : TheaterType) (faceUp : Bool) :
    (PlayCard g playerID cardID theater faceUp).game.Player1.Score = g.Player1.Score ∧
    (PlayCard g playerID cardID theater faceUp).game.Player2.Score = g.Player2.Score := by
  unfold PlayCard
  split_ifs
  · exact ⟨rfl, rfl⟩
  · exact ⟨rfl, rfl⟩
  · split
    · exact ⟨rfl, rfl⟩
    · dsimp only
      split
      · exact setActingHand_scores _ _ _
      · dsimp only
        rw [(checkBattleEnd_scores _).1, (checkBattleEnd_scores _).2]
        exact setActingHand_scores _ _ _

/-- `DestroyCard` leaves the scores alone, however it ends. -/
theorem DestroyCard_scores (g : GameState) (playerID : String) (cardID : Int) :
    (DestroyCard g playerID cardID).game.Player1.Score = g.Player1.Score ∧
    (DestroyCard g playerID cardID).game.Player2.Score = g.Player2.Score := by
  unfold DestroyCard
  split_ifs
  · exact ⟨rfl, rfl⟩
  · exact ⟨rfl, rfl⟩
  · split
    · exact ⟨rfl, rfl⟩
    · dsimp only
      rw [(checkBattleEnd_scores _).1, (checkBattleEnd_scores _).2]
      exact setActingHand_scores _ _ _

/-- `EndTurn` leaves the scores alone, however it ends. -/
theorem EndTurn_scores (g : GameState) (playerID : String) :
    (EndTurn g playerID).game.Player1.Score = g.Player1.Score ∧
    (EndTurn g playerID).game.Player2.Score = g.Player2.Score := by
  unfold EndTurn
  split_ifs <;> exact ⟨rfl, rfl⟩

/-- `DrawCard` leaves the scores alone, however it ends. -/
theorem DrawCard_scores (g : GameState) (playerID : String) :
    (DrawCard g playerID).game.Player1.Score = g.Player1.Score ∧
    (DrawCard g playerID).game.Player2.Score = g.Player2.Score := by
  simp only [DrawCard]
  repeat' split
  all_goals exact ⟨rfl, rfl⟩

/-- `ManipulateCard` leaves the scores alone, however it ends. -/
theorem ManipulateCard_scores (g : GameState) (playerID : String) (theater : TheaterType)
    (cardID : Int) (action : String) :
    (ManipulateCard g playerID theater cardID action).game.Player1.Score = g.Player1.Score ∧
    (ManipulateCard g playerID theater cardID action).game.Player2.Score = g.Player2.Score := by
  simp only [ManipulateCard]
  repeat' split
  all_goals exact ⟨rfl, rfl⟩

/-- Every payout of the withdrawal table is positive. -/
theorem calculateWithdrawalVP_pos (first : Bool) (n : Int) : 0 < calculateWithdrawalVP first n := by
  unfold calculateWithdrawalVP
  split_ifs <;> decide

/-- `StartNextBattle` leaves the scores alone, however it ends. -/
theorem StartNextBattle_scores (g : GameState) (picks : List Nat) :
    (StartNextBattle g picks).game.Player1.Score = g.Player1.Score ∧
    (StartNextBattle g picks).game.Player2.Score = g.Player2.Score := by
  unfold StartNextBattle
  split_ifs <;> exact ⟨rfl, rfl⟩

/-- A property that holds at the start and is kept by every call holds after
every sequence of calls. -/
theorem runOps_induction (P : GameState → Prop)
    (hstep : ∀ (g : GameState) (op : Op), P g → P (op.call g).game)
    (g : GameState) (hg : P g) (ops : List Op) : P (runOps g ops) := by
  induction ops generalizing g with
  | nil => exact hg
  | cons op rest ih => exact ih _ (hstep g op hg)

/-- What a call can do to the participant ids and to the turn fields: the ids
stay, and `FirstPlayerID` and `CurrentPlayerID` stay or become a participant's
id. -/
theorem call_ids (g : GameState) (op : Op) :
    (op.call g).game.Player1.ID = g.Player1.ID ∧
    (op.call g).game.Player2.ID = g.Player2.ID ∧
    ((op.call g).game.FirstPlayerID = g.FirstPlayerID ∨
      (op.call g).game.FirstPlayerID = g.Player1.ID ∨
      (op.call g).game.FirstPlayerID = g.Player2.ID) ∧
    ((op.call g).game.CurrentPlayerID = g.CurrentPlayerID ∨
      (op.call g).game.CurrentPlayerID = g.Player1.ID ∨
      (op.call g).game.CurrentPlayerID = g.Player2.ID) := by
  cases op with
  | playCard playerID cardID theater faceUp =>
    simp only [Op.call, PlayCard, setActingHand, checkBattleEnd]
    repeat' split
    all_goals simp
  | endTurn playerID =>
    simp only [Op.call, EndTurn]
    repeat' split
    all_goals simp
  | drawCard playerID =>
    simp only [Op.call, DrawCard]
    repeat' split
    all_goals simp
  | manipulateCard playerID theater cardID action =>
    simp only [Op.call, ManipulateCard]
    repeat' split
    all_goals simp
  | destroyCard playerID cardID =>
    simp only [Op.call, DestroyCard, setActingHand, checkBattleEnd]
    repeat' split
    all_goals simp
  | withdraw playerID =>
    simp only [Op.call, Withdraw, checkGameOver]
    repeat' split
    all_goals simp
  | updateTheaterScores playerID scores =>
    simp only [Op.call, UpdateTheaterScores, calculateBattleWinner, checkGameOver,
      awardMajority]
    repeat' split
    all_goals simp
  | startNextBattle picks =>
    simp only [Op.call, StartNextBattle, setupNextBattle]
    repeat' split
    all_goals simp
  | startNextGame picks =>
    simp only [Op.call, StartNextGame]
    repeat' split
    all_goals simp

/-- C21: the turn-owner invariant.  In every record reached from
`startNewGame` by any sequence of calls of the nine operations, successful or
not, `Player1.ID` and `Player2.ID` are the ids the room gave them, and
`CurrentPlayerID` and `FirstPlayerID` are each one of these two ids. -/
theorem C21_turn_owner_invariant (room : Room) (gameID : String) (coin : Nat)
    (picks : List Nat) (ops : List Op) :
    (runOps (startNewGame room gameID coin picks) ops).Player1.ID = room.Player1ID ∧
    (runOps (startNewGame room gameID coin picks) ops).Player2.ID = room.Player2ID ∧
    ((runOps (startNewGame room gameID coin picks) ops).CurrentPlayerID
        = (runOps (startNewGame room gameID coin picks) ops).Player1.ID ∨
      (runOps (startNewGame room gameID coin picks) ops).CurrentPlayerID
        = (runOps (startNewGame room gameID coin picks) ops).Player2.ID) ∧
    ((runOps (startNewGame room gameID coin picks) ops).FirstPlayerID
        = (runOps (startNewGame room gameID coin picks) ops).Player1.ID ∨
      (runOps (startNewGame room gameID coin picks) ops).FirstPlayerID
        = (runOps (startNewGame room gameID coin picks) ops).Player2.ID) := by
  apply runOps_induction (fun g => g.Player1.ID = room.Player1ID ∧
    g.Player2.ID = room.Player2ID ∧
    (g.CurrentPlayerID = g.Player1.ID ∨ g.CurrentPlayerID = g.Player2.ID) ∧
    (g.FirstPlayerID = g.Player1.ID ∨ g.FirstPlayerID = g.Player2.ID))
  · intro g op ⟨h1, h2, hc, hf⟩
    obtain ⟨e1, e2, ef, ec⟩ := call_ids g op
    refine ⟨e1.trans h1, e2.trans h2, ?_, ?_⟩
    · rw [e1, e2]
      rcases ec with h | h | h
      · rw [h]
        exact hc
      · exact Or.inl h
      · exact Or.inr h
    · rw [e1, e2]
      rcases ef with h | h | h
      · rw [h]
        exact hf
      · exact Or.inl h
      · exact Or.inr h
  · refine ⟨rfl, rfl, ?_, ?_⟩
    · simp only [startNewGame]
      split_ifs
      · exact Or.inr rfl
      · exact Or.inl rfl
    · simp only [startNewGame]
      split_ifs
      · exact Or.inr rfl
      · exact Or.inl rfl

/-- C22: a manual submission after a withdrawal is a no-op.  In `Scoring` with
a recorded withdrawal, `UpdateTheaterScores` succeeds and returns the record
as it was, for every caller and every submitted map; in any other phase it
fails with "game is not in scoring phase" and the record as it was. -/
theorem C22_submission_after_withdrawal (g : GameState) (playerID : String)
    (scores : List (TheaterType × Int)) :
    (g.Phase = .PhaseScoring → g.WithdrewPlayerID ≠ "" →
      UpdateTheaterScores g playerID scores = ⟨g, .ok⟩) ∧
    (g.Phase ≠ .PhaseScoring →
      UpdateTheaterScores g playerID scores = ⟨g, .err "game is not in scoring phase"⟩) := by
  constructor
  · intro hp hw
    simp [UpdateTheaterScores, hp, hw]
  · intro hp
    simp [UpdateTheaterScores, hp]

/-- C22, witness: after `p1`'s withdrawal a submission by `p2` changes nothing;
in the fresh match, in `Playing`, it is refused. -/
theorem C22_submission_after_withdrawal_witness :
    UpdateTheaterScores withdrawn "p2" [(Air, 5), (Land, 2), (Sea, 6)] = ⟨withdrawn, .ok⟩ ∧
    UpdateTheaterScores freshGame "p2" [(Air, 5)]
      = ⟨freshGame, .err "game is not in scoring phase"⟩ :=
  ⟨(C22_submission_after_withdrawal withdrawn "p2" [(Air, 5), (Land, 2), (Sea, 6)]).1
      (by decide) (by decide),
   (C22_submission_after_withdrawal freshGame "p2" [(Air, 5)]).2 (by decide)⟩

set_option maxRecDepth 20000

/-- C23, on the code: one player's submission alone resolves the battle.  After
both hands ran empty the match is in `Scoring` with no withdrawal, an empty
map of totals and both scores 0; `p1` submits Air 5, Land 2, Sea 6 and `p2`
has submitted nothing.  The call succeeds, every theater now has the non-zero
total of `p1` against 0, the completeness check passes, and `p1` is awarded 6
points. -/
theorem C23_single_submission_scores :
    battleDone.Phase = .PhaseScoring ∧
    battleDone.WithdrewPlayerID = "" ∧
    battleDone.TheaterScores = some [] ∧
    battleDone.Player1.Score = 0 ∧ battleDone.Player2.Score = 0 ∧
    (UpdateTheaterScores battleDone "p1" [(Air, 5), (Land, 2), (Sea, 6)]).out = .ok ∧
    (UpdateTheaterScores battleDone "p1" [(Air, 5), (Land, 2), (Sea, 6)]).game.TheaterScores
      = some [(Air, ⟨5, 0⟩), (Land, ⟨2, 0⟩), (Sea, ⟨6, 0⟩)] ∧
    (UpdateTheaterScores battleDone "p1" [(Air, 5), (Land, 2), (Sea, 6)]).game.Player1.Score
      = 6 := by
  decide

/-- C24: the second player's payout table is the first player's shifted by one
card: for every integer `n`, so for every `n ≥ 0`, withdrawing second with
`n + 1` cards pays what withdrawing first with `n` cards pays. -/
theorem C24_second_table_shifted (n : Int) :
    calculateWithdrawalVP false (n + 1) = calculateWithdrawalVP true n := by
  simp only [calculateWithdrawalVP, Bool.false_eq_true, if_false, if_true]
  split_ifs <;> omega

/-- C25: `UpdateTheaterScores` is not idempotent once a battle is complete.
After both hands ran empty and the totals Air (5,3), Land (4,2) were recorded
(`Scoring`, no withdrawal, both scores 0, `p1` ahead in two theaters), `p1`
submits Air 5, Land 4, Sea 1 twice: the first call gives `p1` 6 points and
leaves `Scoring`, the second gives 6 more, 12 in total, and ends in
`GameOver`.  In general, in `Scoring` without a withdrawal, whenever the
recorded totals after the submission are complete (each of Air, Land, Sea has
an entry with a non-zero total), the call succeeds and a player who is
strictly ahead in at least two theaters is awarded 6 more points, whatever
was awarded before; below the threshold the phase stays `Scoring`. -/
theorem C25_resubmission_scores_again (g : GameState) (playerID : String)
    (scores : List (TheaterType × Int)) (a l s : TheaterScore) :
    (twoRecorded.Phase = .PhaseScoring ∧ twoRecorded.WithdrewPlayerID = "" ∧
      twoRecorded.Player1.Score = 0 ∧ twoRecorded.Player2.Score = 0 ∧
      twoRecorded.TheaterScores = some [(Air, ⟨5, 3⟩), (Land, ⟨4, 2⟩)] ∧
      (UpdateTheaterScores twoRecorded "p1" [(Air, 5), (Land, 4), (Sea, 1)]).out = .ok ∧
      (UpdateTheaterScores twoRecorded "p1" [(Air, 5), (Land, 4), (Sea, 1)]).game.Player1.Score
        = 6 ∧
      (UpdateTheaterScores twoRecorded "p1" [(Air, 5), (Land, 4), (Sea, 1)]).game.Phase
        = .PhaseScoring ∧
      (UpdateTheaterScores
        (UpdateTheaterScores twoRecorded "p1" [(Air, 5), (Land, 4), (Sea, 1)]).game
        "p1" [(Air, 5), (Land, 4), (Sea, 1)]).out = .ok ∧
      (UpdateTheaterScores
        (UpdateTheaterScores twoRecorded "p1" [(Air, 5), (Land, 4), (Sea, 1)]).game
        "p1" [(Air, 5), (Land, 4), (Sea, 1)]).game.Player1.Score = 12 ∧
      (UpdateTheaterScores
        (UpdateTheaterScores twoRecorded "p1" [(Air, 5), (Land, 4), (Sea, 1)]).game
        "p1" [(Air, 5), (Land, 4), (Sea, 1)]).game.Phase = .PhaseGameOver) ∧
    (g.Phase = .PhaseScoring → g.WithdrewPlayerID = "" →
      lookupKey (scores.foldl (recordScore (decide (playerID = g.Player1.ID)))
        (g.TheaterScores.getD [])) Air = some a →
      lookupKey (scores.foldl (recordScore (decide (playerID = g.Player1.ID)))
        (g.TheaterScores.getD [])) Land = some l →
      lookupKey (scores.foldl (recordScore (decide (playerID = g.Player1.ID)))
        (g.TheaterScores.getD [])) Sea = some s →
      (a.Player1Total ≠ 0 ∨ a.Player2Total ≠ 0) →
      (l.Player1Total ≠ 0 ∨ l.Player2Total ≠ 0) →
      (s.Player1Total ≠ 0 ∨ s.Player2Total ≠ 0) →
      (UpdateTheaterScores g playerID scores).out = .ok ∧
      (((a.Player1Total > a.Player2Total ∧ l.Player1Total > l.Player2Total) ∨
        (a.Player1Total > a.Player2Total ∧ s.Player1Total > s.Player2Total) ∨
        (l.Player1Total > l.Player2Total ∧ s.Player1Total > s.Player2Total)) →
        (UpdateTheaterScores g playerID scores).game.Player1.Score = g.Player1.Score + 6) ∧
      (((a.Player2Total > a.Player1Total ∧ l.Player2Total > l.Player1Total) ∨
        (a.Player2Total > a.Player1Total ∧ s.Player2Total > s.Player1Total) ∨
        (l.Player2Total > l.Player1Total ∧ s.Player2Total > s.Player1Total)) →
        (UpdateTheaterScores g playerID scores).game.Player2.Score = g.Player2.Score + 6) ∧
      ((UpdateTheaterScores g playerID scores).game.Player1.Score < 12 →
        (UpdateTheaterScores g playerID scores).game.Player2.Score < 12 →
        (UpdateTheaterScores g playerID scores).game.Phase = .PhaseScoring)) := by
  refine ⟨by decide, ?_⟩
  intro hp hw ha hl hs hna hnl hns
  have hall : allScoredLoop (scores.foldl (recordScore (decide (playerID = g.Player1.ID)))
      (g.TheaterScores.getD [])) [Air, Land, Sea] = true := by
    rw [allScoredLoop_iff]
    intro t ht
    simp only [List.mem_cons, List.mem_singleton, List.not_mem_nil, or_false] at ht
    rcases ht with rfl | rfl | rfl
    · exact ⟨a, ha, hna⟩
    · exact ⟨l, hl, hnl⟩
    · exact ⟨s, hs, hns⟩
  obtain ⟨wins, hw3, h1, h2⟩ := countWins_three _ a l s ha hl hs
  have hcall := (UpdateTheaterScores_scoring g playerID scores hp hw).1 hall
  have hbw : calculateBattleWinner
      { g with TheaterScores := some (scores.foldl (recordScore (decide (playerID = g.Player1.ID)))
          (g.TheaterScores.getD [])) }
      = ⟨checkGameOver (awardMajority
          { g with TheaterScores := some (scores.foldl
              (recordScore (decide (playerID = g.Player1.ID))) (g.TheaterScores.getD [])) }
          wins.1 wins.2), .ok⟩ := by
    unfold calculateBattleWinner
    simp only [Option.getD_some]
    rw [hw3]
  rw [hcall, hbw]
  have hsc := checkGameOver_scores (awardMajority
    { g with TheaterScores := some (scores.foldl
        (recordScore (decide (playerID = g.Player1.ID))) (g.TheaterScores.getD [])) }
    wins.1 wins.2)
  have hph := checkGameOver_phase (awardMajority
    { g with TheaterScores := some (scores.foldl
        (recordScore (decide (playerID = g.Player1.ID))) (g.TheaterScores.getD [])) }
    wins.1 wins.2)
  have haw := awardMajority_effect
    { g with TheaterScores := some (scores.foldl
        (recordScore (decide (playerID = g.Player1.ID))) (g.TheaterScores.getD [])) }
    wins.1 wins.2
  have hsame := awardMajority_scores
    { g with TheaterScores := some (scores.foldl
        (recordScore (decide (playerID = g.Player1.ID))) (g.TheaterScores.getD [])) }
    wins.1 wins.2
  refine ⟨rfl, ?_, ?_, ?_⟩
  · intro hmaj
    have hw1 : 2 ≤ wins.1 := h1.2 hmaj
    show (checkGameOver _).Player1.Score = _
    rw [hsc.1, haw.1 hw1]
  · intro hmaj
    have hw2 : 2 ≤ wins.2 := h2.2 hmaj
    have hw1 : ¬ 2 ≤ wins.1 := by
      rw [h1]
      omega
    show (checkGameOver _).Player2.Score = _
    rw [hsc.2, haw.2.1 hw1 hw2]
  · intro hlt1 hlt2
    show (checkGameOver _).Phase = _
    have hlt1' : (checkGameOver (awardMajority
        { g with TheaterScores := some (scores.foldl
            (recordScore (decide (playerID = g.Player1.ID))) (g.TheaterScores.getD [])) }
        wins.1 wins.2)).Player1.Score < 12 := hlt1
    have hlt2' : (checkGameOver (awardMajority
        { g with TheaterScores := some (scores.foldl
            (recordScore (decide (playerID = g.Player1.ID))) (g.TheaterScores.getD [])) }
        wins.1 wins.2)).Player2.Score < 12 := hlt2
    rw [hsc.1] at hlt1'
    rw [hsc.2] at hlt2'
    rw [hph.2 (by omega), hsame.1]
    exact hp

/-- C25, witness: with the totals Air (5,3), Land (4,2) recorded, `p1` submits
Air 5, Land 4, Sea 1; the totals are complete, `p1` is ahead in Air and Land
and gets 6 points. -/
theorem C25_resubmission_scores_again_witness :
    (UpdateTheaterScores twoRecorded "p1" [(Air, 5), (Land, 4), (Sea, 1)]).game.Player1.Score
      = twoRecorded.Player1.Score + 6 :=
  ((C25_resubmission_scores_again twoRecorded "p1" [(Air, 5), (Land, 4), (Sea, 1)]
      ⟨5, 3⟩ ⟨4, 2⟩ ⟨1, 0⟩).2 (by decide) (by decide) (by decide) (by decide) (by decide)
      (by decide) (by decide) (by decide)).2.1 (Or.inl (by decide))

/-- Every payout of the withdrawal table is at most 6. -/
theorem calculateWithdrawalVP_le (first : Bool) (n : Int) : calculateWithdrawalVP first n ≤ 6 := by
  unfold calculateWithdrawalVP
  split_ifs <;> decide

/-- The five turn operations change the phase only from `Playing` to
`Scoring`. -/
theorem turn_call_phase (g : GameState) (op : Op)
    (hop : (∃ p c t f, op = .playCard p c t f) ∨ (∃ p, op = .endTurn p) ∨
      (∃ p, op = .drawCard p) ∨ (∃ p t c a, op = .manipulateCard p t c a) ∨
      (∃ p c, op = .destroyCard p c)) :
    (op.call g).game.Phase = g.Phase ∨
    (g.Phase = .PhasePlaying ∧ (op.call g).game.Phase = .PhaseScoring) := by
  rcases hop with ⟨p, c, t, f, rfl⟩ | ⟨p, rfl⟩ | ⟨p, rfl⟩ | ⟨p, t, c, a, rfl⟩ | ⟨p, c, rfl⟩
  · simp only [Op.call, PlayCard, setActingHand, checkBattleEnd]
    repeat' split
    all_goals simp_all
  · simp only [Op.call, EndTurn]
    repeat' split
    all_goals simp_all
  · simp only [Op.call, DrawCard]
    repeat' split
    all_goals simp_all
  · simp only [Op.call, ManipulateCard]
    repeat' split
    all_goals simp_all
  · simp only [Op.call, DestroyCard, setActingHand, checkBattleEnd]
    repeat' split
    all_goals simp_all

/-- One call keeps the scores within 0..17 and the phase `GameOver` exactly at
the threshold of 12. -/
theorem call_scores_phase (g : GameState) (op : Op)
    (h : (0 ≤ g.Player1.Score ∧ g.Player1.Score ≤ 17) ∧
      (0 ≤ g.Player2.Score ∧ g.Player2.Score ≤ 17) ∧
      (g.Phase = .PhaseGameOver ↔ (12 ≤ g.Player1.Score ∨ 12 ≤ g.Player2.Score))) :
    (0 ≤ (op.call g).game.Player1.Score ∧ (op.call g).game.Player1.Score ≤ 17) ∧
    (0 ≤ (op.call g).game.Player2.Score ∧ (op.call g).game.Player2.Score ≤ 17) ∧
    ((op.call g).game.Phase = .PhaseGameOver ↔
      (12 ≤ (op.call g).game.Player1.Score ∨ 12 ≤ (op.call g).game.Player2.Score)) := by
  obtain ⟨h1, h2, hph⟩ := h
  have hturn : ∀ op : Op,
      ((op.call g).game.Player1.Score = g.Player1.Score ∧
        (op.call g).game.Player2.Score = g.Player2.Score) →
      ((op.call g).game.Phase = g.Phase ∨
        (g.Phase = .PhasePlaying ∧ (op.call g).game.Phase = .PhaseScoring)) →
      (0 ≤ (op.call g).game.Player1.Score ∧ (op.call g).game.Player1.Score ≤ 17) ∧
      (0 ≤ (op.call g).game.Player2.Score ∧ (op.call g).game.Player2.Score ≤ 17) ∧
      ((op.call g).game.Phase = .PhaseGameOver ↔
        (12 ≤ (op.call g).game.Player1.Score ∨ 12 ≤ (op.call g).game.Player2.Score)) := by
    intro op hs hp
    rw [hs.1, hs.2]
    refine ⟨h1, h2, ?_⟩
    rcases hp with e | ⟨e1, e2⟩
    · rw [e]
      exact hph
    · rw [e2, ← hph, e1]
      simp
  cases op with
  | playCard p c t f =>
    exact hturn _ (PlayCard_scores g p c t f) (turn_call_phase g _ (Or.inl ⟨p, c, t, f, rfl⟩))
  | endTurn p =>
    exact hturn _ (EndTurn_scores g p) (turn_call_phase g _ (Or.inr (Or.inl ⟨p, rfl⟩)))
  | drawCard p =>
    exact hturn _ (DrawCard_scores g p)
      (turn_call_phase g _ (Or.inr (Or.inr (Or.inl ⟨p, rfl⟩))))
  | manipulateCard p t c a =>
    exact hturn _ (ManipulateCard_scores g p t c a)
      (turn_call_phase g _ (Or.inr (Or.inr (Or.inr (Or.inl ⟨p, t, c, a, rfl⟩)))))
  | destroyCard p c =>
    exact hturn _ (DestroyCard_scores g p c)
      (turn_call_phase g _ (Or.inr (Or.inr (Or.inr (Or.inr ⟨p, c, rfl⟩)))))
  | withdraw p =>
    simp only [Op.call]
    by_cases hp : g.Phase = .PhasePlaying
    · have hlow : ¬ (12 ≤ g.Player1.Score ∨ 12 ≤ g.Player2.Score) := by
        rw [← hph, hp]
        simp
      simp only [Withdraw, hp, ne_eq, not_true_eq_false, if_false]
      generalize hg2 : (if p = g.Player1.ID then _ else _ : GameState) = g2
      have hvp1 := calculateWithdrawalVP_pos (decide (p = g.FirstPlayerID))
        (if p = g.Player1.ID then (g.Player1.Hand.len : Int) else g.Player2.Hand.len)
      have hvp2 := calculateWithdrawalVP_le (decide (p = g.FirstPlayerID))
        (if p = g.Player1.ID then (g.Player1.Hand.len : Int) else g.Player2.Hand.len)
      have hg : g2.Phase = .PhaseScoring ∧
          (0 ≤ g2.Player1.Score ∧ g2.Player1.Score ≤ 17) ∧
          (0 ≤ g2.Player2.Score ∧ g2.Player2.Score ≤ 17) := by
        rw [← hg2]
        split_ifs with hq
        · rw [if_pos hq] at hvp1 hvp2
          refine ⟨rfl, h1, ?_⟩
          simp only
          omega
        · rw [if_neg hq] at hvp1 hvp2
          refine ⟨rfl, ?_, h2⟩
          simp only
          omega
      have hs := checkGameOver_scores g2
      have hc := checkGameOver_phase g2
      rw [hs.1, hs.2]
      refine ⟨hg.2.1, hg.2.2, ?_⟩
      constructor
      · intro hover
        by_contra hn
        rw [hc.2 hn, hg.1] at hover
        exact GamePhase.noConfusion hover
      · exact hc.1
    · have : Withdraw g p = ⟨g, .err "cannot withdraw in current phase"⟩ := by
        simp [Withdraw, hp]
      rw [this]
      exact ⟨h1, h2, hph⟩
  | updateTheaterScores p scores =>
    simp only [Op.call]
    by_cases hp : g.Phase = .PhaseScoring
    · by_cases hw : g.WithdrewPlayerID = ""
      · have hlow : ¬ (12 ≤ g.Player1.Score ∨ 12 ≤ g.Player2.Score) := by
          rw [← hph, hp]
          simp
        have hu := UpdateTheaterScores_scoring g p scores hp hw
        cases hall : allScoredLoop (scores.foldl (recordScore (p = g.Player1.ID))
            (g.TheaterScores.getD [])) [Air, Land, Sea]
        · rw [hu.2 hall]
          exact ⟨h1, h2, hph⟩
        · rw [hu.1 hall]
          obtain ⟨w, hcw⟩ := countWins_of_allScored _ _ (0, 0) hall
          have hok : (calculateBattleWinner
              { g with TheaterScores := some (scores.foldl (recordScore (p = g.Player1.ID))
                  (g.TheaterScores.getD [])) }).out = .ok := by
            unfold calculateBattleWinner
            simp only [Option.getD_some]
            rw [hcw]
          have hb := calculateBattleWinner_ok _ hok
          simp only at hb
          obtain ⟨hsc, hover, hstay⟩ := hb
          refine ⟨?_, ?_, ?_⟩
          · rcases hsc with e | e | e <;> rw [e.1] <;> omega
          · rcases hsc with e | e | e <;> rw [e.2] <;> omega
          · constructor
            · intro hov
              by_contra hn
              rw [hstay hn, hp] at hov
              exact GamePhase.noConfusion hov
            · exact hover
      · have : UpdateTheaterScores g p scores = ⟨g, .ok⟩ := by
          simp [UpdateTheaterScores, hp, hw]
        rw [this]
        exact ⟨h1, h2, hph⟩
    · have : UpdateTheaterScores g p scores = ⟨g, .err "game is not in scoring phase"⟩ := by
        simp [UpdateTheaterScores, hp]
      rw [this]
      exact ⟨h1, h2, hph⟩
  | startNextBattle picks =>
    simp only [Op.call]
    have hs := StartNextBattle_scores g picks
    rw [hs.1, hs.2]
    refine ⟨h1, h2, ?_⟩
    by_cases hover : g.Phase = .PhaseGameOver
    · have : StartNextBattle g picks = ⟨g, .err "game is over"⟩ := by
        simp [StartNextBattle, hover]
      rw [this]
      exact hph
    · by_cases hp : g.Phase = .PhaseScoring
      · have : StartNextBattle g picks = ⟨setupNextBattle g picks, .ok⟩ := by
          simp [StartNextBattle, hp]
        rw [this, ← hph]
        show (GamePhase.PhasePlaying = GamePhase.PhaseGameOver) ↔ _
        simp [hover]
      · have : StartNextBattle g picks = ⟨g, .err "battle is not finished"⟩ := by
          simp [StartNextBattle, hover, hp]
        rw [this]
        exact hph
  | startNextGame picks =>
    simp only [Op.call]
    by_cases hover : g.Phase = .PhaseGameOver
    · simp [StartNextGame, hover]
    · have : StartNextGame g picks = ⟨g, .err "game is not over"⟩ := by
        simp [StartNextGame, hover]
      rw [this]
      exact ⟨h1, h2, hph⟩

/-- In every record reached from `startNewGame` both scores are within 0..17
and the phase is `GameOver` exactly if a score is 12 or more; so in `Playing`
and `Scoring` both scores are within 0..11. -/
theorem reachable_scores_phase (room : Room) (gameID : String) (coin : Nat)
    (picks : List Nat) (ops : List Op) :
    (0 ≤ (runOps (startNewGame room gameID coin picks) ops).Player1.Score ∧
      (runOps (startNewGame room gameID coin picks) ops).Player1.Score ≤ 17) ∧
    (0 ≤ (runOps (startNewGame room gameID coin picks) ops).Player2.Score ∧
      (runOps (startNewGame room gameID coin picks) ops).Player2.Score ≤ 17) ∧
    ((runOps (startNewGame room gameID coin picks) ops).Phase = .PhaseGameOver ↔
      (12 ≤ (runOps (startNewGame room gameID coin picks) ops).Player1.Score ∨
        12 ≤ (runOps (startNewGame room gameID coin picks) ops).Player2.Score)) := by
  apply runOps_induction (fun g => (0 ≤ g.Player1.Score ∧ g.Player1.Score ≤ 17) ∧
    (0 ≤ g.Player2.Score ∧ g.Player2.Score ≤ 17) ∧
    (g.Phase = .PhaseGameOver ↔ (12 ≤ g.Player1.Score ∨ 12 ≤ g.Player2.Score)))
  · intro g op hg
    exact call_scores_phase g op hg
  · simp [startNewGame]

/-- C26, on the code: a record in `Playing` with both hands empty.  In the
fresh match `p1` destroys cards 1..5, `p2` destroys cards 7..12, and `p1`,
holding card 6 only, is to move in `Playing`.  `p1` plays card 6 to the
theater name "space": the card leaves the hand, the missing theater is
dereferenced, the call panics before the both-hands-empty check, and the
stored record stays in `Playing` with no card in either hand (scores 0). -/
theorem C26_playing_with_empty_hands :
    (runOps (startNewGame demoRoom "G" 0 keepOrder) oneCardLeft).Phase = .PhasePlaying ∧
    (runOps (startNewGame demoRoom "G" 0 keepOrder) oneCardLeft).CurrentPlayerID = "p1" ∧
    (runOps (startNewGame demoRoom "G" 0 keepOrder) oneCardLeft).Player1.Hand.len = 1 ∧
    (runOps (startNewGame demoRoom "G" 0 keepOrder) oneCardLeft).Player2.Hand.len = 0 ∧
    (PlayCard (runOps (startNewGame demoRoom "G" 0 keepOrder) oneCardLeft)
      "p1" 6 "space" true).out = .panic ∧
    (runOps (startNewGame demoRoom "G" 0 keepOrder)
      (oneCardLeft ++ [.playCard "p1" 6 "space" true])).Phase = .PhasePlaying ∧
    (runOps (startNewGame demoRoom "G" 0 keepOrder)
      (oneCardLeft ++ [.playCard "p1" 6 "space" true])).Player1.Hand.len = 0 ∧
    (runOps (startNewGame demoRoom "G" 0 keepOrder)
      (oneCardLeft ++ [.playCard "p1" 6 "space" true])).Player2.Hand.len = 0 := by
  decide

set_option maxHeartbeats 1000000 in
/-- What a call can do to the map of theaters: leave it, write one of its
entries, or replace it by the three empty theaters. -/
theorem call_theaters (g : GameState) (op : Op) :
    (op.call g).game.Theaters = g.Theaters ∨
    (∃ (k : TheaterType) (v : Theater), lookupKey g.Theaters k ≠ none ∧
      (op.call g).game.Theaters = storeKey g.Theaters k v) ∨
    (op.call g).game.Theaters = emptyTheaters := by
  cases op with
  | playCard playerID cardID theater faceUp =>
    simp only [Op.call, PlayCard]
    split_ifs
    · exact Or.inl rfl
    · exact Or.inl rfl
    · split
      · exact Or.inl rfl
      · rename_i cardIndex card hfind
        have hf := (setActingHand_frame g playerID
          ((actingHand g playerID).removeAt g.Dealt cardIndex)).2.2.1
        split
        · exact Or.inl hf
        · rename_i theaterObj hlook
          rw [hf] at hlook
          refine Or.inr (Or.inl ⟨theater,
            ⟨theaterObj.Kind, theaterObj.Cards ++ [⟨card, faceUp, playerID⟩]⟩,
            by rw [hlook]; simp, ?_⟩)
          simp only [checkBattleEnd]
          split_ifs
          · simp only
            rw [hf]
          · simp only
            rw [hf]
  | endTurn playerID =>
    simp only [Op.call, EndTurn]
    repeat' split
    all_goals exact Or.inl rfl
  | drawCard playerID =>
    simp only [Op.call, DrawCard]
    repeat' split
    all_goals exact Or.inl rfl
  | manipulateCard playerID theater cardID action =>
    cases hlook : lookupKey g.Theaters theater with
    | none =>
      simp only [Op.call, ManipulateCard, hlook]
      repeat' split
      all_goals exact Or.inl rfl
    | some theaterObj =>
      have hsome : lookupKey g.Theaters theater ≠ none := by
        rw [hlook]
        simp
      simp only [Op.call, ManipulateCard, hlook]
      repeat' split
      all_goals first
        | exact Or.inl rfl
        | exact Or.inr (Or.inl ⟨theater, _, hsome, rfl⟩)
  | destroyCard playerID cardID =>
    simp only [Op.call, DestroyCard, setActingHand, checkBattleEnd]
    repeat' split
    all_goals exact Or.inl rfl
  | withdraw playerID =>
    simp only [Op.call, Withdraw, checkGameOver]
    repeat' split
    all_goals exact Or.inl rfl
  | updateTheaterScores playerID scores =>
    simp only [Op.call, UpdateTheaterScores, calculateBattleWinner, checkGameOver,
      awardMajority]
    repeat' split
    all_goals exact Or.inl rfl
  | startNextBattle picks =>
    simp only [Op.call, StartNextBattle]
    split_ifs
    · exact Or.inl rfl
    · exact Or.inl rfl
    · exact Or.inr (Or.inr rfl)
  | startNextGame picks =>
    simp only [Op.call, StartNextGame]
    split_ifs
    all_goals first
      | exact Or.inr (Or.inr rfl)
      | exact Or.inl rfl

/-- Writing an entry keeps every key the map has. -/
theorem lookupKey_storeKey_present {α : Type} (m : List (String × α)) (k t : String) (v : α)
    (h : lookupKey m t ≠ none) : lookupKey (storeKey m k v) t ≠ none := by
  by_cases e : t = k
  · rw [e, lookupKey_storeKey_same]
    simp
  · rw [lookupKey_storeKey_other m k t v e]
    exact h

/-- Every record reached from `startNewGame` has a theater under each of the
three names. -/
theorem reachable_theaters (room : Room) (gameID : String) (coin : Nat) (picks : List Nat)
    (ops : List Op) (t : TheaterType) (ht : t ∈ [Air, Land, Sea]) :
    lookupKey (runOps (startNewGame room gameID coin picks) ops).Theaters t ≠ none := by
  have hempty : lookupKey emptyTheaters t ≠ none := by
    simp only [List.mem_cons, List.mem_singleton, List.not_mem_nil, or_false] at ht
    rcases ht with rfl | rfl | rfl <;> decide
  apply runOps_induction (fun g => lookupKey g.Theaters t ≠ none)
  · intro g op hg
    rcases call_theaters g op with h | ⟨k, v, _, h⟩ | h
    · rw [h]
      exact hg
    · rw [h]
      exact lookupKey_storeKey_present _ _ _ _ hg
    · rw [h]
      exact hempty
  · exact hempty

/-- The backward search returns a position of the sequence and the card
there. -/
theorem lastWithID_getElem (cs : List PlayedCard) (cardID : Int) (i : Nat) (t : PlayedCard)
    (h : lastWithID cs cardID = some (i, t)) : cs[i]? = some t := by
  induction cs generalizing i with
  | nil => simp [lastWithID] at h
  | cons c rest ih =>
    unfold lastWithID at h
    cases hr : lastWithID rest cardID with
    | some p =>
      rw [hr] at h
      simp only [Option.some.injEq, Prod.mk.injEq] at h
      obtain ⟨hi, hp⟩ := h
      subst hi
      rw [List.getElem?_cons_succ]
      exact ih p.1 (by rw [hr, ← hp])
    | none =>
      rw [hr] at h
      simp only at h
      split_ifs at h
      simp only [Option.some.injEq, Prod.mk.injEq] at h
      obtain ⟨hi, hp⟩ := h
      subst hi
      rw [List.getElem?_cons_zero, hp]

/-- A resolved target is a position of the sequence. -/
theorem resolveTarget_lt (cs : List PlayedCard) (cardID : Int) (i : Nat) (hne : cs ≠ [])
    (h : resolveTarget cs cardID = .ok i) : i < cs.length := by
  unfold resolveTarget at h
  split_ifs at h
  · split at h
    · simp at h
    · rename_i targetIndex targetCard hfind
      split_ifs at h
      simp only [Except.ok.injEq] at h
      subst h
      have := lastWithID_getElem cs cardID targetIndex targetCard hfind
      exact (List.getElem?_eq_some_iff.1 this).1
  · simp only [Except.ok.injEq] at h
    subst h
    have : 0 < cs.length := List.length_pos.2 hne
    omega

/-- After a removal the array of the theater still has a card at the place
of the removed one. -/
theorem arrayAfterRemove_getElem (cs : List PlayedCard) (i : Nat) (h : i < cs.length) :
    (arrayAfterRemove cs i)[i]? ≠ none := by
  have hlen : (arrayAfterRemove cs i).length = cs.length := by
    unfold arrayAfterRemove
    rw [List.length_append, List.length_eraseIdx, List.length_drop]
    simp [h]
  intro hnone
  rw [List.getElem?_eq_none_iff] at hnone
  omega

/-- `PlayCard` on a theater name the map knows does not panic. -/
theorem PlayCard_no_panic (g : GameState) (playerID : String) (cardID : Int)
    (theater : TheaterType) (faceUp : Bool) (hth : lookupKey g.Theaters theater ≠ none) :
    (PlayCard g playerID cardID theater faceUp).out ≠ .panic := by
  unfold PlayCard
  split_ifs
  · simp
  · simp
  · split
    · simp
    · rename_i cardIndex card hfind
      have hf := (setActingHand_frame g playerID
        ((actingHand g playerID).removeAt g.Dealt cardIndex)).2.2.1
      dsimp only
      split
      · rename_i hnone
        rw [hf] at hnone
        exact absurd hnone hth
      · simp

/-- `ManipulateCard` on a theater name the map knows does not panic: the
resolved target is a position of the theater's sequence. -/
theorem ManipulateCard_no_panic (g : GameState) (playerID : String) (theater : TheaterType)
    (cardID : Int) (action : String) (hth : lookupKey g.Theaters theater ≠ none) :
    (ManipulateCard g playerID theater cardID action).out ≠ .panic := by
  by_cases hp : g.Phase = .PhasePlaying
  · by_cases hc : g.CurrentPlayerID = playerID
    · cases hl : lookupKey g.Theaters theater with
      | none => exact absurd hl hth
      | some th =>
        by_cases hne : th.Cards = []
        · simp [ManipulateCard, hp, hc, hl, hne]
        · cases hr : resolveTarget th.Cards cardID with
          | error msg =>
            rw [ManipulateCard_unresolved g playerID theater cardID action th msg hp hc hl hne hr]
            simp
          | ok i =>
            have hlt := resolveTarget_lt th.Cards cardID i hne hr
            obtain ⟨t, ht⟩ : ∃ t, th.Cards[i]? = some t :=
              ⟨th.Cards[i], List.getElem?_eq_getElem hlt⟩
            have hres := ManipulateCard_resolved g playerID theater cardID action th i t
              hp hc hl hne hr ht
            by_cases h1 : action = "flip"
            · rw [hres.1 h1]
              simp
            · by_cases h2 : action = "destroy"
              · rw [hres.2.1 h2]
                simp
              · by_cases h3 : action = "return"
                · subst h3
                  have harr := arrayAfterRemove_getElem th.Cards i hlt
                  simp [ManipulateCard, hp, hc, hl, hne, hr, ht]
                  split
                  · rename_i hnone
                    exact absurd hnone harr
                  · split_ifs <;> simp
                · rw [hres.2.2.2 h1 h2 h3]
                  simp
    · simp [ManipulateCard, hp, hc]
  · simp [ManipulateCard, hp]

/-- `UpdateTheaterScores` does not panic: it calls `calculateBattleWinner` only
after its loop has found an entry for each of the three theaters. -/
theorem UpdateTheaterScores_no_panic (g : GameState) (playerID : String)
    (scores : List (TheaterType × Int)) :
    (UpdateTheaterScores g playerID scores).out ≠ .panic := by
  unfold UpdateTheaterScores
  split_ifs
  · simp
  · simp
  · dsimp only
    split_ifs with hall
    · obtain ⟨w, hw⟩ := countWins_of_allScored _ _ (0, 0) hall
      unfold calculateBattleWinner
      simp only [Option.getD_some]
      rw [hw]
      simp
    · simp

/-- C27: no lookup of a missing entry.  Every record reached from
`startNewGame` has a theater under each of Air, Land and Sea, so `PlayCard`
and `ManipulateCard` called on it with one of these names do not end in a
nil-pointer panic.  `UpdateTheaterScores` calls `calculateBattleWinner` only
when its loop over Air, Land, Sea accepts the recorded totals, which needs an
entry for each of them; so on every record `UpdateTheaterScores` ends without
a panic. -/
theorem C27_no_missing_entry (room : Room) (gameID : String) (coin : Nat) (picks : List Nat)
    (ops : List Op) (playerID : String) (cardID : Int) (theater : TheaterType) (faceUp : Bool)
    (action : String) (g0 : GameState) (scores : List (TheaterType × Int))
    (ts : List (TheaterType × TheaterScore)) :
    (∀ t ∈ [Air, Land, Sea],
      ∃ th, lookupKey (runOps (startNewGame room gameID coin picks) ops).Theaters t = some th) ∧
    (theater ∈ [Air, Land, Sea] →
      (PlayCard (runOps (startNewGame room gameID coin picks) ops) playerID cardID theater
        faceUp).out ≠ .panic ∧
      (ManipulateCard (runOps (startNewGame room gameID coin picks) ops) playerID theater
        cardID action).out ≠ .panic) ∧
    (allScoredLoop ts [Air, Land, Sea] = true →
      (∀ t ∈ [Air, Land, Sea], ∃ e, lookupKey ts t = some e) ∧
      (calculateBattleWinner { g0 with TheaterScores := some ts }).out = .ok) ∧
    (UpdateTheaterScores g0 playerID scores).out ≠ .panic := by
  refine ⟨?_, ?_, ?_, UpdateTheaterScores_no_panic g0 playerID scores⟩
  · intro t ht
    have h := reachable_theaters room gameID coin picks ops t ht
    cases hl : lookupKey (runOps (startNewGame room gameID coin picks) ops).Theaters t with
    | none => exact absurd hl h
    | some th => exact ⟨th, rfl⟩
  · intro ht
    have h := reachable_theaters room gameID coin picks ops theater ht
    exact ⟨PlayCard_no_panic _ playerID cardID theater faceUp h,
      ManipulateCard_no_panic _ playerID theater cardID action h⟩
  · intro hall
    constructor
    · intro t ht
      obtain ⟨e, he, _⟩ := (allScoredLoop_iff ts [Air, Land, Sea]).1 hall t ht
      exact ⟨e, he⟩
    · obtain ⟨w, hw⟩ := countWins_of_allScored ts [Air, Land, Sea] (0, 0) hall
      unfold calculateBattleWinner
      simp only [Option.getD_some]
      rw [hw]

/-- C27, witness: after two draws in the fresh match, a `PlayCard` and a
`ManipulateCard` on Sea do not panic. -/
theorem C27_no_missing_entry_witness :
    (PlayCard (runOps (startNewGame demoRoom "G" 0 keepOrder)
      [.drawCard "p1", .drawCard "p1"]) "p1" 1 Sea true).out ≠ .panic ∧
    (ManipulateCard (runOps (startNewGame demoRoom "G" 0 keepOrder)
      [.drawCard "p1", .drawCard "p1"]) "p1" Sea 0 "flip").out ≠ .panic :=
  (C27_no_missing_entry demoRoom "G" 0 keepOrder [.drawCard "p1", .drawCard "p1"] "p1" 1 Sea
    true "flip" freshGame [] []).2.1 (by decide)

/-- A score with room for 6 more points is in the 64-bit range, and stays in
it when a payout of at most 6 is added. -/
theorem score_room (x v : Int) (hv : 0 ≤ v ∧ v ≤ 6) (h : x + 6 ≤ maxInt64) :
    x ≤ maxInt64 ∧ x ≤ x + v ∧ x + v ≤ maxInt64 := by
  omega

/-- `Withdraw` on scores that leave room for a payout: no score drops and no
score leaves the 64-bit range. -/
theorem Withdraw_scores_inRange (g : GameState) (playerID : String)
    (h1 : minInt64 ≤ g.Player1.Score ∧ g.Player1.Score + 6 ≤ maxInt64)
    (h2 : minInt64 ≤ g.Player2.Score ∧ g.Player2.Score + 6 ≤ maxInt64) :
    (g.Player1.Score ≤ (Withdraw g playerID).game.Player1.Score ∧
      (Withdraw g playerID).game.Player1.Score ≤ maxInt64) ∧
    (g.Player2.Score ≤ (Withdraw g playerID).game.Player2.Score ∧
      (Withdraw g playerID).game.Player2.Score ≤ maxInt64) := by
  have r1 := score_room g.Player1.Score 0 (by decide) h1.2
  have r2 := score_room g.Player2.Score 0 (by decide) h2.2
  unfold Withdraw
  split_ifs with hp
  · exact ⟨⟨le_refl _, r1.1⟩, ⟨le_refl _, r2.1⟩⟩
  · simp only
    rw [(checkGameOver_scores _).1, (checkGameOver_scores _).2]
    split_ifs with hq
    · have hpos := calculateWithdrawalVP_pos (decide (playerID = g.FirstPlayerID))
        g.Player1.Hand.len
      have hle := calculateWithdrawalVP_le (decide (playerID = g.FirstPlayerID))
        g.Player1.Hand.len
      have r := score_room g.Player2.Score _ ⟨le_of_lt hpos, hle⟩ h2.2
      exact ⟨⟨le_refl _, r1.1⟩, ⟨r.2.1, r.2.2⟩⟩
    · have hpos := calculateWithdrawalVP_pos (decide (playerID = g.FirstPlayerID))
        g.Player2.Hand.len
      have hle := calculateWithdrawalVP_le (decide (playerID = g.FirstPlayerID))
        g.Player2.Hand.len
      have r := score_room g.Player1.Score _ ⟨le_of_lt hpos, hle⟩ h1.2
      exact ⟨⟨r.2.1, r.2.2⟩, ⟨le_refl _, r2.1⟩⟩

/-- `calculateBattleWinner` on scores that leave room for an award: no score
drops and no score leaves the 64-bit range, however the call ends. -/
theorem calculateBattleWinner_scores_inRange (g : GameState)
    (h1 : minInt64 ≤ g.Player1.Score ∧ g.Player1.Score + 6 ≤ maxInt64)
    (h2 : minInt64 ≤ g.Player2.Score ∧ g.Player2.Score + 6 ≤ maxInt64) :
    (g.Player1.Score ≤ (calculateBattleWinner g).game.Player1.Score ∧
      (calculateBattleWinner g).game.Player1.Score ≤ maxInt64) ∧
    (g.Player2.Score ≤ (calculateBattleWinner g).game.Player2.Score ∧
      (calculateBattleWinner g).game.Player2.Score ≤ maxInt64) := by
  have r1 := score_room g.Player1.Score 6 (by decide) h1.2
  have r2 := score_room g.Player2.Score 6 (by decide) h2.2
  unfold calculateBattleWinner
  split
  · exact ⟨⟨le_refl _, r1.1⟩, ⟨le_refl _, r2.1⟩⟩
  · rename_i wins _
    simp only
    rw [(checkGameOver_scores _).1, (checkGameOver_scores _).2]
    rcases (awardMajority_scores g wins.1 wins.2).2 with h | h | h
    · rw [h.1, h.2]
      exact ⟨⟨r1.2.1, r1.2.2⟩, ⟨le_refl _, r2.1⟩⟩
    · rw [h.1, h.2]
      exact ⟨⟨le_refl _, r1.1⟩, ⟨r2.2.1, r2.2.2⟩⟩
    · rw [h.1, h.2]
      exact ⟨⟨le_refl _, r1.1⟩, ⟨le_refl _, r2.1⟩⟩

/-- `UpdateTheaterScores` on scores that leave room for an award: no score
drops and no score leaves the 64-bit range, however the call ends. -/
theorem UpdateTheaterScores_scores_inRange (g : GameState) (playerID : String)
    (scores : List (TheaterType × Int))
    (h1 : minInt64 ≤ g.Player1.Score ∧ g.Player1.Score + 6 ≤ maxInt64)
    (h2 : minInt64 ≤ g.Player2.Score ∧ g.Player2.Score + 6 ≤ maxInt64) :
    (g.Player1.Score ≤ (UpdateTheaterScores g playerID scores).game.Player1.Score ∧
      (UpdateTheaterScores g playerID scores).game.Player1.Score ≤ maxInt64) ∧
    (g.Player2.Score ≤ (UpdateTheaterScores g playerID scores).game.Player2.Score ∧
      (UpdateTheaterScores g playerID scores).game.Player2.Score ≤ maxInt64) := by
  have r1 := score_room g.Player1.Score 0 (by decide) h1.2
  have r2 := score_room g.Player2.Score 0 (by decide) h2.2
  unfold UpdateTheaterScores
  split_ifs
  · exact ⟨⟨le_refl _, r1.1⟩, ⟨le_refl _, r2.1⟩⟩
  · exact ⟨⟨le_refl _, r1.1⟩, ⟨le_refl _, r2.1⟩⟩
  · dsimp only
    split_ifs
    · exact calculateBattleWinner_scores_inRange
        { g with TheaterScores := some (scores.foldl (recordScore (playerID = g.Player1.ID))
            (g.TheaterScores.getD [])) } h1 h2
    · exact ⟨⟨le_refl _, r1.1⟩, ⟨le_refl _, r2.1⟩⟩

/-- A call of one of the eight operations other than `StartNextGame`, on
scores that leave room for 6 more points: no score drops and no score leaves
the 64-bit range. -/
theorem call_scores_inRange (g : GameState) (op : Op) (hop : ∀ p, op ≠ .startNextGame p)
    (h1 : minInt64 ≤ g.Player1.Score ∧ g.Player1.Score + 6 ≤ maxInt64)
    (h2 : minInt64 ≤ g.Player2.Score ∧ g.Player2.Score + 6 ≤ maxInt64) :
    (g.Player1.Score ≤ (op.call g).game.Player1.Score ∧
      (op.call g).game.Player1.Score ≤ maxInt64) ∧
    (g.Player2.Score ≤ (op.call g).game.Player2.Score ∧
      (op.call g).game.Player2.Score ≤ maxInt64) := by
  have hsame : ∀ r : Result, (r.game.Player1.Score = g.Player1.Score ∧
      r.game.Player2.Score = g.Player2.Score) →
      (g.Player1.Score ≤ r.game.Player1.Score ∧ r.game.Player1.Score ≤ maxInt64) ∧
      (g.Player2.Score ≤ r.game.Player2.Score ∧ r.game.Player2.Score ≤ maxInt64) := by
    intro r hr
    rw [hr.1, hr.2]
    exact ⟨⟨le_refl _, (score_room _ 0 (by decide) h1.2).1⟩,
      ⟨le_refl _, (score_room _ 0 (by decide) h2.2).1⟩⟩
  cases op with
  | playCard playerID cardID theater faceUp =>
    exact hsame _ (PlayCard_scores g playerID cardID theater faceUp)
  | endTurn playerID => exact hsame _ (EndTurn_scores g playerID)
  | drawCard playerID => exact hsame _ (DrawCard_scores g playerID)
  | manipulateCard playerID theater cardID action =>
    exact hsame _ (ManipulateCard_scores g playerID theater cardID action)
  | destroyCard playerID cardID => exact hsame _ (DestroyCard_scores g playerID cardID)
  | withdraw playerID => exact Withdraw_scores_inRange g playerID h1 h2
  | updateTheaterScores playerID scores =>
    exact UpdateTheaterScores_scores_inRange g playerID scores h1 h2
  | startNextBattle p => exact hsame _ (StartNextBattle_scores g p)
  | startNextGame p => exact absurd rfl (hop p)

/-- C20: score monotonicity.  For every record reached from `startNewGame` and
every call of `PlayCard`, `EndTurn`, `DrawCard`, `ManipulateCard`,
`DestroyCard`, `Withdraw`, `UpdateTheaterScores` or `StartNextBattle`,
successful or not, each player's score after the call is at least the score
before it, and both are within 0..17.  The same holds for every record whose
two scores lie in the 64-bit range with room for 6 more points: no score
drops and no sum leaves the range.  `StartNextGame` is the one operation that
lowers scores: made in `GameOver` it sets both to 0, and made in any other
phase it fails and leaves them. -/
theorem C20_score_monotone (room : Room) (gameID : String) (coin : Nat) (picks : List Nat)
    (ops : List Op) (g : GameState) (op : Op) (picks2 : List Nat) :
    ((∀ p, op ≠ .startNextGame p) →
      ((0 ≤ (runOps (startNewGame room gameID coin picks) ops).Player1.Score ∧
          (runOps (startNewGame room gameID coin picks) ops).Player1.Score
            ≤ (op.call (runOps (startNewGame room gameID coin picks) ops)).game.Player1.Score) ∧
        (op.call (runOps (startNewGame room gameID coin picks) ops)).game.Player1.Score ≤ 17) ∧
      ((0 ≤ (runOps (startNewGame room gameID coin picks) ops).Player2.Score ∧
          (runOps (startNewGame room gameID coin picks) ops).Player2.Score
            ≤ (op.call (runOps (startNewGame room gameID coin picks) ops)).game.Player2.Score) ∧
        (op.call (runOps (startNewGame room gameID coin picks) ops)).game.Player2.Score ≤ 17)) ∧
    ((∀ p, op ≠ .startNextGame p) →
      (minInt64 ≤ g.Player1.Score ∧ g.Player1.Score + 6 ≤ maxInt64) →
      (minInt64 ≤ g.Player2.Score ∧ g.Player2.Score + 6 ≤ maxInt64) →
      (g.Player1.Score ≤ (op.call g).game.Player1.Score ∧
        (op.call g).game.Player1.Score ≤ maxInt64) ∧
      (g.Player2.Score ≤ (op.call g).game.Player2.Score ∧
        (op.call g).game.Player2.Score ≤ maxInt64)) ∧
    (g.Phase = .PhaseGameOver →
      (StartNextGame g picks2).game.Player1.Score = 0 ∧
      (StartNextGame g picks2).game.Player2.Score = 0) ∧
    (g.Phase ≠ .PhaseGameOver →
      (StartNextGame g picks2).game.Player1.Score = g.Player1.Score ∧
      (StartNextGame g picks2).game.Player2.Score = g.Player2.Score) := by
  refine ⟨?_, ?_, ?_, ?_⟩
  · intro hop
    have hr := reachable_scores_phase room gameID coin picks ops
    have hnext := call_scores_phase _ op hr
    have hb1 : minInt64 ≤ (runOps (startNewGame room gameID coin picks) ops).Player1.Score ∧
        (runOps (startNewGame room gameID coin picks) ops).Player1.Score + 6 ≤ maxInt64 := by
      simp only [minInt64, maxInt64]
      omega
    have hb2 : minInt64 ≤ (runOps (startNewGame room gameID coin picks) ops).Player2.Score ∧
        (runOps (startNewGame room gameID coin picks) ops).Player2.Score + 6 ≤ maxInt64 := by
      simp only [minInt64, maxInt64]
      omega
    have hm := call_scores_inRange _ op hop hb1 hb2
    exact ⟨⟨⟨hr.1.1, hm.1.1⟩, hnext.1.2⟩, ⟨⟨hr.2.1.1, hm.2.1⟩, hnext.2.1.2⟩⟩
  · intro hop h1 h2
    exact call_scores_inRange g op hop h1 h2
  · intro h
    simp [StartNextGame, h]
  · intro h
    simp [StartNextGame, h]

/-- C20, witness: in the fresh match `p1`'s withdrawal does not lower `p2`'s
score; with `p2` at the greatest score that leaves room for 6 points it does
not either, and the result is still in the 64-bit range; the rematch after a
finished match sets the score to 0. -/
theorem C20_score_monotone_witness :
    freshGame.Player2.Score ≤ ((Op.withdraw "p1").call freshGame).game.Player2.Score ∧
    ((Op.withdraw "p1").call
      { freshGame with Player2 := { freshGame.Player2 with Score := maxInt64 - 6 } }).game.Player2.Score
      ≤ maxInt64 ∧
    (StartNextGame matchOver keepOrder).game.Player2.Score = 0 :=
  ⟨((C20_score_monotone demoRoom "G" 0 keepOrder [] freshGame (.withdraw "p1") keepOrder).1
      (fun p h => Op.noConfusion h)).2.1.2,
   ((C20_score_monotone demoRoom "G" 0 keepOrder []
      { freshGame with Player2 := { freshGame.Player2 with Score := maxInt64 - 6 } }
      (.withdraw "p1") keepOrder).2.1
      (fun p h => Op.noConfusion h) (by decide) (by decide)).2.2,
   ((C20_score_monotone demoRoom "G" 0 keepOrder [] matchOver (.withdraw "p1")
      keepOrder).2.2.1 (by decide)).2⟩

end Alns
